import Mathlib

/-!
Verification of the tic-tac-toe game logic and AI engine (src/script.js).

The JavaScript source is shallowly embedded: boards are lists of optional
marks, JavaScript numbers appearing in the minimax search (which uses the
IEEE infinities as fold seeds) are embedded as the type `JNum` of integers
extended with two infinities, and the mutate-then-undo recursion of the AI
is embedded both as a pure function (`AIPlayer.minimax`) and as an explicit
state-passing function (`AIPlayer.minimaxM`) whose board component tracks
the in-place mutations of the source.  The strict JavaScript equality
`===` on cell values returns a boolean and is embedded as `==`.
-/

set_option maxRecDepth 8000

/-- A player mark: the source uses the strings "X" and "O". -/
inductive Mark where
  | X : Mark
  | O : Mark
deriving DecidableEq

/-- A board cell: `null` in the source is `none` here. -/
abbrev Cell := Option Mark

/-- A board: the source uses `Array(9).fill(null)`; during normal play the
list has length 9, but the embedding keeps the length general because the
source never checks it.  A JavaScript read `board[i]` yields `undefined`
(falsy, like `null`) out of range, embedded as `board.getD i none`. -/
abbrev Board := List Cell

/-- A winning combination `[a, b, c]` of cell indices. -/
abbrev Triple := Nat × Nat × Nat

/-- JavaScript numbers as they occur in the minimax search: integers plus
the two infinities used as seeds (`-Infinity`, `Infinity`). -/
inductive JNum where
  | negInf : JNum
  | fin : Int → JNum
  | posInf : JNum
deriving DecidableEq

/-- The strict comparison `a < b` on `JNum`, as JavaScript compares these
values. -/
def JNum.lt : JNum → JNum → Bool
  | .negInf, .negInf => false
  | .negInf, _ => true
  | .fin a, .fin b => decide (a < b)
  | .fin _, .posInf => true
  | .fin _, .negInf => false
  | .posInf, _ => false

/-- `Math.max(a, b)` on the embedded numbers. -/
def jmax (a b : JNum) : JNum := if a.lt b then b else a

/-- `Math.min(a, b)` on the embedded numbers. -/
def jmin (a b : JNum) : JNum := if b.lt a then b else a

/-- Non-strict comparison, defined from the strict one. -/
def jle (a b : JNum) : Prop := ¬ (JNum.lt b a = true)

/-- Sign of an embedded number: -1, 0 or 1. -/
def jsgn : JNum → Int
  | .negInf => -1
  | .posInf => 1
  | .fin v => if v < 0 then -1 else if v = 0 then 0 else 1

/-- Number of empty cells of a board (the measure of the minimax
recursion; each hypothetical placement fills one empty cell). -/
def countNone : Board → Nat
  | [] => 0
  | none :: t => countNone t + 1
  | some _ :: t => countNone t

/-- Indices of the empty cells of a board, in increasing order, starting
the numbering at `i`. -/
def emptyIdxAux : Nat → Board → List Nat
  | _, [] => []
  | i, none :: rest => i :: emptyIdxAux (i + 1) rest
  | i, some _ :: rest => emptyIdxAux (i + 1) rest

/-- Indices of the empty cells of a board, in increasing order. -/
def emptyIdx (b : Board) : List Nat := emptyIdxAux 0 b

/-- Result of `AIPlayer.checkGameState`: the source returns a mark string,
the string "draw", or `null` (embedded as `none`) for a game in progress. -/
inductive AIResult where
  | mark (m : Mark) : AIResult
  | draw : AIResult
deriving DecidableEq

/-- The `winningCombinations` array local to `AIPlayer.checkGameState`. -/
def AIPlayer.winningCombinations : List Triple :=
  [(0, 1, 2), (3, 4, 5), (6, 7, 8),
   (0, 3, 6), (1, 4, 7), (2, 5, 8),
   (0, 4, 8), (2, 4, 6)]

/-- One iteration of the winner loop of `AIPlayer.checkGameState`:
`board[a] && board[a] === board[b] && board[a] === board[c]` returns
`board[a]`. -/
def AIPlayer.comboCheck (board : Board) (t : Triple) : Option Mark :=
  match board.getD t.1 none with
  | some m =>
      if (board.getD t.2.1 none == some m) && (board.getD t.2.2 none == some m) then
        some m
      else
        none
  | none => none

/-- `AIPlayer.checkGameState(board)`: the first winning combination's mark,
else "draw" if the board is full (`board.every(cell => cell !== null)`),
else `null`. -/
def AIPlayer.checkGameState (board : Board) : Option AIResult :=
  match AIPlayer.winningCombinations.findSome? (AIPlayer.comboCheck board) with
  | some m => some (.mark m)
  | none =>
      if board.all (fun cell => cell != none) then some .draw else none

/-- `AIPlayer.minimax(board, depth, isMaximizing)`, fuel-indexed.  The game
constructs the AI with `aiSymbol = "O"` and `humanSymbol = "X"`
(`GameConfig`), so `result === this.aiSymbol` and
`result === this.humanSymbol` are embedded as matches on `O` and `X`.
The source recursion terminates because each hypothetical placement fills
an empty cell; `fuel` makes that measure explicit, and its value is
irrelevant at or above `countNone board` (`minimaxF_fuel_irrel`), which
also shows the `0` branch is never taken from `AIPlayer.minimax`. -/
def AIPlayer.minimaxF : Nat → Board → Nat → Bool → JNum
  | fuel, board, depth, isMaximizing =>
    match AIPlayer.checkGameState board with
    | some (.mark .O) => .fin (10 - (depth : Int))
    | some (.mark .X) => .fin ((depth : Int) - 10)
    | some .draw => .fin 0
    | none =>
      match fuel with
      | 0 => .fin 0
      | fuel + 1 =>
        if isMaximizing then
          (List.range board.length).foldl
            (fun bestScore i =>
              if board.getD i none == none then
                jmax (AIPlayer.minimaxF fuel (board.set i (some .O)) (depth + 1) false)
                  bestScore
              else bestScore)
            .negInf
        else
          (List.range board.length).foldl
            (fun bestScore i =>
              if board.getD i none == none then
                jmin (AIPlayer.minimaxF fuel (board.set i (some .X)) (depth + 1) true)
                  bestScore
              else bestScore)
            .posInf

/-- `AIPlayer.minimax(board, depth, isMaximizing)` with the canonical fuel. -/
def AIPlayer.minimax (board : Board) (depth : Nat) (isMaximizing : Bool) : JNum :=
  AIPlayer.minimaxF (countNone board) board depth isMaximizing

/-- One iteration of the loop of `AIPlayer.findBestMove`: on an empty cell,
place the AI mark, score with `minimax(board, 0, false)`, undo the
placement, and keep the move if the score strictly beats the best score
so far (`score > bestScore`). -/
def AIPlayer.fbStep (board : Board) (acc : JNum × Option Nat) (i : Nat) :
    JNum × Option Nat :=
  if board.getD i none == none then
    let score := AIPlayer.minimax (board.set i (some .O)) 0 false
    if acc.1.lt score then (score, some i) else acc
  else acc

/-- `AIPlayer.findBestMove(board)`: `bestScore` starts at `-Infinity` and
`bestMove` at `null`. -/
def AIPlayer.findBestMove (board : Board) : Option Nat :=
  ((List.range board.length).foldl (AIPlayer.fbStep board) (.negInf, none)).2

/-- The step function of the maximizing loop of `minimax`, abstracted over
the score `f i` of the move at cell `i` (proof infrastructure). -/
def maxStep (board : Board) (f : Nat → JNum) (bestScore : JNum) (i : Nat) : JNum :=
  if board.getD i none == none then jmax (f i) bestScore else bestScore

/-- The step function of the minimizing loop of `minimax`, abstracted over
the score `f i` of the move at cell `i` (proof infrastructure). -/
def minStep (board : Board) (f : Nat → JNum) (bestScore : JNum) (i : Nat) : JNum :=
  if board.getD i none == none then jmin (f i) bestScore else bestScore

/-- The empty nine-cell board `Array(9).fill(null)`. -/
def empty9 : Board := List.replicate 9 none

/-- State-passing embedding of `AIPlayer.minimax` for the frame property:
the second component is the board as mutated by the call.  Each trial sets
`board[i]`, recurses on the mutated board, and undoes the trial by setting
`board[i] = null` on whatever board the recursive call returned. -/
def AIPlayer.minimaxM : Nat → Board → Nat → Bool → JNum × Board
  | fuel, board, depth, isMaximizing =>
    match AIPlayer.checkGameState board with
    | some (.mark .O) => (.fin (10 - (depth : Int)), board)
    | some (.mark .X) => (.fin ((depth : Int) - 10), board)
    | some .draw => (.fin 0, board)
    | none =>
      match fuel with
      | 0 => (.fin 0, board)
      | fuel + 1 =>
        if isMaximizing then
          (List.range board.length).foldl
            (fun acc i =>
              if acc.2.getD i none == none then
                let afterSet := acc.2.set i (some .O)
                let rec' := AIPlayer.minimaxM fuel afterSet (depth + 1) false
                (jmax rec'.1 acc.1, rec'.2.set i none)
              else acc)
            (.negInf, board)
        else
          (List.range board.length).foldl
            (fun acc i =>
              if acc.2.getD i none == none then
                let afterSet := acc.2.set i (some .X)
                let rec' := AIPlayer.minimaxM fuel afterSet (depth + 1) true
                (jmin rec'.1 acc.1, rec'.2.set i none)
              else acc)
            (.posInf, board)

/-- State-passing embedding of `AIPlayer.findBestMove` for the frame
property: the final component is the board as mutated by the call. -/
def AIPlayer.findBestMoveM (board : Board) : Option Nat × Board :=
  let r := (List.range board.length).foldl
    (fun (acc : JNum × Option Nat × Board) i =>
      if acc.2.2.getD i none == none then
        let afterSet := acc.2.2.set i (some .O)
        let rec' := AIPlayer.minimaxM (countNone afterSet) afterSet 0 false
        let restored := rec'.2.set i none
        if acc.1.lt rec'.1 then (rec'.1, some i, restored) else (acc.1, acc.2.1, restored)
      else acc)
    (.negInf, none, board)
  (r.2.1, r.2.2)

/-- Strategy certificates for bounding minimax values: `play` gives the
strategy player's move, `branch` lists one sub-certificate per empty cell
of the position, in increasing index order (proof infrastructure). -/
inductive Cert where
  | play (move : Nat) (next : Cert) : Cert
  | branch (children : List Cert) : Cert

/-- Certificate checker bounding `minimax board depth isMaximizing` from
above by `s`: the minimizing player plays the certificate moves, every
maximizing reply is covered by `branch` (proof infrastructure). -/
def ubCheck (s : Int) : Nat → Cert → Board → Nat → Bool → Bool
  | fuel, cert, board, depth, isMaximizing =>
    match AIPlayer.checkGameState board with
    | some (.mark .O) => decide ((10 - (depth : Int)) ≤ s)
    | some (.mark .X) => decide (((depth : Int) - 10) ≤ s)
    | some .draw => decide ((0 : Int) ≤ s)
    | none =>
      match fuel with
      | 0 => false
      | fuel + 1 =>
        if isMaximizing then
          match cert with
          | .branch children =>
            let es := emptyIdx board
            (es.length == children.length) &&
              (es.zip children).all
                (fun p => ubCheck s fuel p.2 (board.set p.1 (some .O)) (depth + 1) false)
          | _ => false
        else
          match cert with
          | .play mv next =>
              decide (mv < board.length) && (board.getD mv none == none) &&
                ubCheck s fuel next (board.set mv (some .X)) (depth + 1) true
          | _ => false

/-- Certificate checker bounding `minimax board depth isMaximizing` from
below by `s`: the maximizing player plays the certificate moves, every
minimizing reply is covered by `branch` (proof infrastructure). -/
def lbCheck (s : Int) : Nat → Cert → Board → Nat → Bool → Bool
  | fuel, cert, board, depth, isMaximizing =>
    match AIPlayer.checkGameState board with
    | some (.mark .O) => decide (s ≤ (10 - (depth : Int)))
    | some (.mark .X) => decide (s ≤ ((depth : Int) - 10))
    | some .draw => decide (s ≤ (0 : Int))
    | none =>
      match fuel with
      | 0 => false
      | fuel + 1 =>
        if isMaximizing then
          match cert with
          | .play mv next =>
              decide (mv < board.length) && (board.getD mv none == none) &&
                lbCheck s fuel next (board.set mv (some .O)) (depth + 1) false
          | _ => false
        else
          match cert with
          | .branch children =>
            let es := emptyIdx board
            (es.length == children.length) &&
              (es.zip children).all
                (fun p => lbCheck s fuel p.2 (board.set p.1 (some .X)) (depth + 1) true)
          | _ => false

/-- The `winningCombinations` field of `GameLogic` (same literal array as
the one local to `AIPlayer.checkGameState`). -/
def GameLogic.winningCombinations : List Triple :=
  [(0, 1, 2), (3, 4, 5), (6, 7, 8),
   (0, 3, 6), (1, 4, 7), (2, 5, 8),
   (0, 4, 8), (2, 4, 6)]

/-- The `winner` value of a result object: a mark or the string "draw". -/
inductive ResultVal where
  | mark (m : Mark) : ResultVal
  | draw : ResultVal
deriving DecidableEq

/-- A result object `{ winner, combination }` of `GameLogic`: a draw
carries the empty combination `[]` in the source. -/
structure GameResult where
  winner : ResultVal
  combination : List Nat
deriving DecidableEq

/-- One iteration of the loop of `GameLogic.checkWinner`. -/
def GameLogic.comboWin (board : Board) (t : Triple) : Option GameResult :=
  match board.getD t.1 none with
  | some m =>
      if (board.getD t.2.1 none == some m) && (board.getD t.2.2 none == some m) then
        some ⟨.mark m, [t.1, t.2.1, t.2.2]⟩
      else
        none
  | none => none

/-- `GameLogic.checkWinner(board)`: the first winning combination, with its
winner, else `null`. -/
def GameLogic.checkWinner (board : Board) : Option GameResult :=
  GameLogic.winningCombinations.findSome? (GameLogic.comboWin board)

/-- `GameLogic.checkDraw(board)`: `board.every(cell => cell !== null)`. -/
def GameLogic.checkDraw (board : Board) : Bool :=
  board.all (fun cell => cell != none)

/-- `GameLogic.getGameResult(board)`: win result, else draw, else `null`. -/
def GameLogic.getGameResult (board : Board) : Option GameResult :=
  match GameLogic.checkWinner board with
  | some r => some r
  | none => if GameLogic.checkDraw board then some ⟨.draw, []⟩ else none

/-- The score counters of `GameState`. -/
structure Scores where
  X : Nat
  O : Nat
  draw : Nat
deriving DecidableEq

/-- The game state: board, current player, active flag and scores.  Score
persistence (`localStorage`) is an external collaborator and is omitted. -/
structure GameState where
  board : Board
  currentPlayer : Mark
  gameActive : Bool
  scores : Scores
deriving DecidableEq

/-- The state built by the `GameState` constructor (with no stored scores). -/
def GameState.initial : GameState :=
  { board := List.replicate 9 none
    currentPlayer := .X
    gameActive := true
    scores := ⟨0, 0, 0⟩ }

/-- JavaScript array element assignment `a[i] = v`: in range it overwrites;
past the end it extends the array to length `i + 1` (the intermediate
holes read as `undefined`, embedded as `none`). -/
def jsArraySet (b : Board) (i : Nat) (v : Cell) : Board :=
  if i < b.length then b.set i v
  else b ++ List.replicate (i - b.length) none ++ [v]

/-- `GameState.makeMove(index)`: rejects when `board[index]` is truthy (an
occupied cell; out-of-range reads are `undefined`, falsy) or the game is
inactive; otherwise assigns the current player's mark and reports success.
The source performs no range check on `index`. -/
def GameState.makeMove (s : GameState) (index : Nat) : Bool × GameState :=
  if s.board.getD index none ≠ none ∨ s.gameActive = false then (false, s)
  else (true, { s with board := jsArraySet s.board index (some s.currentPlayer) })

/-- `GameState.reset()`: fresh board, player X, active game; scores kept. -/
def GameState.reset (s : GameState) : GameState :=
  { s with board := List.replicate 9 none, currentPlayer := .X, gameActive := true }

/-- `GameState.switchPlayer()`. -/
def GameState.switchPlayer (s : GameState) : GameState :=
  { s with currentPlayer := if s.currentPlayer = .X then .O else .X }

/-- `GameState.updateScore(winner)` (the `saveScores` call is external). -/
def GameState.updateScore (s : GameState) (winner : ResultVal) : GameState :=
  match winner with
  | .draw => { s with scores := { s.scores with draw := s.scores.draw + 1 } }
  | .mark .X => { s with scores := { s.scores with X := s.scores.X + 1 } }
  | .mark .O => { s with scores := { s.scores with O := s.scores.O + 1 } }

/-- The game mode: two humans, or human versus AI. -/
inductive Mode where
  | player : Mode
  | ai : Mode
deriving DecidableEq

/-- The session configuration (`GameConfig`): the constructor fixes
`aiPlayer = "O"` and `humanPlayer = "X"` and nothing ever reassigns them. -/
structure GameConfig where
  mode : Mode
  nameX : String
  nameO : String
  aiPlayer : Mark
  humanPlayer : Mark
deriving DecidableEq

/-- `GameConfig.isAITurn(currentPlayer)`. -/
def GameConfig.isAITurn (c : GameConfig) (currentPlayer : Mark) : Bool :=
  (c.mode == .ai) && (currentPlayer == c.aiPlayer)

/-- The controller state (`TicTacToeGame`): configuration plus game state.
UI and persistence collaborators are external and carry no game state. -/
structure Game where
  config : GameConfig
  state : GameState
deriving DecidableEq

/-- `TicTacToeGame.handleGameEnd(result)`: deactivates the game and updates
the scores (UI rendering and the modal timer are external effects). -/
def TicTacToeGame.handleGameEnd (g : Game) (result : GameResult) : Game :=
  { g with state := GameState.updateScore { g.state with gameActive := false } result.winner }

/-- `TicTacToeGame.handleCellClick(index)`: ignores the click on the AI's
turn, delegates to `makeMove`, then either concludes the game or switches
the player.  When the new turn belongs to the AI, `makeAIMove` only
schedules a deferred callback (`setTimeout`), so it changes no game state
here; the callback body is `TicTacToeGame.aiMoveCallback`. -/
def TicTacToeGame.handleCellClick (g : Game) (index : Nat) : Game :=
  if g.config.isAITurn g.state.currentPlayer then g
  else
    match g.state.makeMove index with
    | (false, _) => g
    | (true, s₁) =>
      match GameLogic.getGameResult s₁.board with
      | some result => TicTacToeGame.handleGameEnd { g with state := s₁ } result
      | none => { g with state := s₁.switchPlayer }

/-- The body of the deferred callback scheduled by
`TicTacToeGame.makeAIMove`: find the best move on a copy of the live
board, apply it via `makeMove` (short-circuiting when no move exists or
`makeMove` fails), then conclude or switch exactly as a click does. -/
def TicTacToeGame.aiMoveCallback (g : Game) : Game :=
  match AIPlayer.findBestMove g.state.board with
  | none => g
  | some bestMove =>
    match g.state.makeMove bestMove with
    | (false, _) => g
    | (true, s₁) =>
      match GameLogic.getGameResult s₁.board with
      | some result => TicTacToeGame.handleGameEnd { g with state := s₁ } result
      | none => { g with state := s₁.switchPlayer }

/-- `TicTacToeGame.resetGame()`: resets the game state (UI calls are
external; the conditional `makeAIMove` at the end only schedules a
deferred callback, so it changes no game state here). -/
def TicTacToeGame.resetGame (g : Game) : Game :=
  { g with state := g.state.reset }

/-- A controller freshly started in AI mode (as `startGame` configures it):
mode `ai`, AI plays O, human plays X, initial state. -/
def aiGame₀ : Game :=
  { config := { mode := .ai, nameX := "Jogador X", nameO := "IA", aiPlayer := .O, humanPlayer := .X }
    state := GameState.initial }

/-- The spec's notion of a winning triple: the three cells of `t` all hold
the mark `m`. -/
def lineWins (b : Board) (m : Mark) (t : Triple) : Prop :=
  b.getD t.1 none = some m ∧ b.getD t.2.1 none = some m ∧ b.getD t.2.2 none = some m

/-- Boards reachable from the empty board when the opponent (X, moving
first) plays arbitrary legal moves and the AI (O) answers with
`findBestMove`.  The flag is `true` when X is to move.  Moves are only
made while the game is still in progress, as the controller guards. -/
inductive AITrace : Board → Bool → Prop where
  | init : AITrace empty9 true
  | human (b : Board) (i : Nat) :
      AITrace b true →
      AIPlayer.checkGameState b = none →
      i < b.length →
      b.getD i none = none →
      AITrace (b.set i (some .X)) false
  | ai (b : Board) (j : Nat) :
      AITrace b false →
      AIPlayer.checkGameState b = none →
      AIPlayer.findBestMove b = some j →
      AITrace (b.set j (some .O)) true
/-- Certificate: X holds the value of the empty board to at most 0 (proof infrastructure). -/
def certUB : Cert :=
  .play 0 (.branch [.play 3 (.branch [.play 6 (.branch []), .play 6 (.branch []), .play 6 (.branch []), .play 4 (.branch [.play 5 (.branch []), .play 8 (.branch []), .play 5 (.branch []), .play 5 (.branch [])]), .play 6 (.branch []), .play 6 (.branch [])]), .play 3 (.branch [.play 6 (.branch []), .play 6 (.branch []), .play 6 (.branch []), .play 4 (.branch [.play 5 (.branch []), .play 8 (.branch []), .play 5 (.branch []), .play 5 (.branch [])]), .play 6 (.branch []), .play 6 (.branch [])]), .play 1 (.branch [.play 4 (.branch [.play 7 (.branch []), .play 7 (.branch []), .play 8 (.branch []), .play 7 (.branch [])]), .play 2 (.branch []), .play 2 (.branch []), .play 2 (.branch []), .play 2 (.branch []), .play 2 (.branch [])]), .play 1 (.branch [.play 6 (.branch [.play 5 (.branch [.play 8 (.branch []), .play 7 (.branch [])]), .play 3 (.branch []), .play 3 (.branch []), .play 3 (.branch [])]), .play 2 (.branch []), .play 2 (.branch []), .play 2 (.branch []), .play 2 (.branch []), .play 2 (.branch [])]), .play 2 (.branch [.play 4 (.branch [.play 6 (.branch []), .play 8 (.branch []), .play 6 (.branch []), .play 6 (.branch [])]), .play 1 (.branch []), .play 1 (.branch []), .play 1 (.branch []), .play 1 (.branch []), .play 1 (.branch [])]), .play 1 (.branch [.play 4 (.branch [.play 7 (.branch []), .play 7 (.branch []), .play 8 (.branch []), .play 7 (.branch [])]), .play 2 (.branch []), .play 2 (.branch []), .play 2 (.branch []), .play 2 (.branch []), .play 2 (.branch [])]), .play 2 (.branch [.play 4 (.branch [.play 6 (.branch []), .play 6 (.branch []), .play 8 (.branch []), .play 6 (.branch [])]), .play 1 (.branch []), .play 1 (.branch []), .play 1 (.branch []), .play 1 (.branch []), .play 1 (.branch [])]), .play 2 (.branch [.play 6 (.branch [.play 4 (.branch []), .play 3 (.branch []), .play 3 (.branch []), .play 3 (.branch [])]), .play 1 (.branch []), .play 1 (.branch []), .play 1 (.branch []), .play 1 (.branch []), .play 1 (.branch [])])])

/-- Certificate: O holds the value of the empty board to at least 0 (proof infrastructure). -/
def certLB : Cert :=
  .branch [.play 4 (.branch [.play 2 (.branch [.play 6 (.branch []), .play 6 (.branch []), .play 3 (.branch [.play 7 (.branch [.branch []]), .play 5 (.branch []), .play 5 (.branch [])]), .play 6 (.branch []), .play 6 (.branch [])]), .play 1 (.branch [.play 7 (.branch []), .play 7 (.branch []), .play 7 (.branch []), .play 3 (.branch [.play 8 (.branch [.branch []]), .play 5 (.branch []), .play 5 (.branch [])]), .play 7 (.branch [])]), .play 6 (.branch [.play 2 (.branch []), .play 1 (.branch [.play 7 (.branch []), .play 5 (.branch [.branch []]), .play 7 (.branch [])]), .play 2 (.branch []), .play 2 (.branch []), .play 2 (.branch [])]), .play 1 (.branch [.play 7 (.branch []), .play 7 (.branch []), .play 7 (.branch []), .play 6 (.branch [.play 8 (.branch [.branch []]), .play 2 (.branch []), .play 2 (.branch [])]), .play 7 (.branch [])]), .play 3 (.branch [.play 5 (.branch []), .play 5 (.branch []), .play 1 (.branch [.play 7 (.branch []), .play 8 (.branch [.branch []]), .play 7 (.branch [])]), .play 5 (.branch []), .play 5 (.branch [])]), .play 3 (.branch [.play 5 (.branch []), .play 5 (.branch []), .play 2 (.branch [.play 6 (.branch []), .play 8 (.branch [.branch []]), .play 6 (.branch [])]), .play 5 (.branch []), .play 5 (.branch [])]), .play 1 (.branch [.play 7 (.branch []), .play 7 (.branch []), .play 7 (.branch []), .play 7 (.branch []), .play 6 (.branch [.play 5 (.branch [.branch []]), .play 2 (.branch []), .play 2 (.branch [])])])]), .play 4 (.branch [.play 2 (.branch [.play 6 (.branch []), .play 6 (.branch []), .play 3 (.branch [.play 7 (.branch [.branch []]), .play 5 (.branch []), .play 5 (.branch [])]), .play 6 (.branch []), .play 6 (.branch [])]), .play 0 (.branch [.play 8 (.branch []), .play 8 (.branch []), .play 8 (.branch []), .play 8 (.branch []), .play 5 (.branch [.play 6 (.branch [.branch []]), .play 3 (.branch []), .play 3 (.branch [])])]), .play 0 (.branch [.play 8 (.branch []), .play 8 (.branch []), .play 8 (.branch []), .play 8 (.branch []), .play 2 (.branch [.play 6 (.branch []), .play 7 (.branch [.branch []]), .play 6 (.branch [])])]), .play 0 (.branch [.play 8 (.branch []), .play 8 (.branch []), .play 8 (.branch []), .play 8 (.branch []), .play 2 (.branch [.play 6 (.branch []), .play 7 (.branch [.branch []]), .play 6 (.branch [])])]), .play 3 (.branch [.play 5 (.branch []), .play 5 (.branch []), .play 8 (.branch [.play 2 (.branch [.branch []]), .play 0 (.branch []), .play 0 (.branch [])]), .play 5 (.branch []), .play 5 (.branch [])]), .play 0 (.branch [.play 8 (.branch []), .play 8 (.branch []), .play 8 (.branch []), .play 8 (.branch []), .play 6 (.branch [.play 3 (.branch []), .play 2 (.branch []), .play 2 (.branch [])])]), .play 3 (.branch [.play 5 (.branch []), .play 5 (.branch []), .play 2 (.branch [.play 6 (.branch []), .play 7 (.branch [.branch []]), .play 6 (.branch [])]), .play 5 (.branch []), .play 5 (.branch [])])]), .play 4 (.branch [.play 1 (.branch [.play 7 (.branch []), .play 7 (.branch []), .play 7 (.branch []), .play 3 (.branch [.play 8 (.branch [.branch []]), .play 5 (.branch []), .play 5 (.branch [])]), .play 7 (.branch [])]), .play 0 (.branch [.play 8 (.branch []), .play 8 (.branch []), .play 8 (.branch []), .play 8 (.branch []), .play 5 (.branch [.play 6 (.branch [.branch []]), .play 3 (.branch []), .play 3 (.branch [])])]), .play 1 (.branch [.play 7 (.branch []), .play 7 (.branch []), .play 7 (.branch []), .play 8 (.branch [.play 6 (.branch [.branch []]), .play 0 (.branch []), .play 0 (.branch [])]), .play 7 (.branch [])]), .play 8 (.branch [.play 1 (.branch [.play 7 (.branch []), .play 7 (.branch []), .play 3 (.branch [.branch []])]), .play 0 (.branch []), .play 0 (.branch []), .play 0 (.branch []), .play 0 (.branch [])]), .play 1 (.branch [.play 7 (.branch []), .play 7 (.branch []), .play 7 (.branch []), .play 8 (.branch [.play 3 (.branch [.branch []]), .play 0 (.branch []), .play 0 (.branch [])]), .play 7 (.branch [])]), .play 3 (.branch [.play 5 (.branch []), .play 5 (.branch []), .play 8 (.branch [.play 1 (.branch [.branch []]), .play 0 (.branch []), .play 0 (.branch [])]), .play 5 (.branch []), .play 5 (.branch [])]), .play 5 (.branch [.play 3 (.branch []), .play 3 (.branch []), .play 1 (.branch [.play 7 (.branch []), .play 7 (.branch []), .play 6 (.branch [.branch []])]), .play 3 (.branch []), .play 3 (.branch [])])]), .play 4 (.branch [.play 6 (.branch [.play 2 (.branch []), .play 1 (.branch [.play 7 (.branch []), .play 5 (.branch [.branch []]), .play 7 (.branch [])]), .play 2 (.branch []), .play 2 (.branch []), .play 2 (.branch [])]), .play 0 (.branch [.play 8 (.branch []), .play 8 (.branch []), .play 8 (.branch []), .play 8 (.branch []), .play 2 (.branch [.play 6 (.branch []), .play 7 (.branch [.branch []]), .play 6 (.branch [])])]), .play 1 (.branch [.play 7 (.branch []), .play 7 (.branch []), .play 7 (.branch []), .play 8 (.branch [.play 6 (.branch [.branch []]), .play 0 (.branch []), .play 0 (.branch [])]), .play 7 (.branch [])]), .play 0 (.branch [.play 8 (.branch []), .play 8 (.branch []), .play 8 (.branch []), .play 8 (.branch []), .play 2 (.branch [.play 6 (.branch []), .play 1 (.branch []), .play 1 (.branch [])])]), .play 0 (.branch [.play 8 (.branch []), .play 8 (.branch []), .play 8 (.branch []), .play 8 (.branch []), .play 7 (.branch [.play 2 (.branch [.branch []]), .play 1 (.branch []), .play 1 (.branch [])])]), .play 0 (.branch [.play 8 (.branch []), .play 8 (.branch []), .play 8 (.branch []), .play 8 (.branch []), .play 6 (.branch [.play 2 (.branch []), .play 5 (.branch [.branch []]), .play 2 (.branch [])])]), .play 1 (.branch [.play 7 (.branch []), .play 7 (.branch []), .play 7 (.branch []), .play 7 (.branch []), .play 6 (.branch [.play 2 (.branch []), .play 5 (.branch [.branch []]), .play 2 (.branch [])])])]), .play 0 (.branch [.play 7 (.branch [.play 6 (.branch [.play 8 (.branch []), .play 3 (.branch []), .play 3 (.branch [])]), .play 5 (.branch [.play 6 (.branch [.branch []]), .play 2 (.branch [.branch []]), .play 2 (.branch [.branch []])]), .play 3 (.branch [.play 6 (.branch []), .play 2 (.branch [.branch []]), .play 6 (.branch [])]), .play 2 (.branch [.play 5 (.branch [.branch []]), .play 3 (.branch [.branch []]), .play 3 (.branch [.branch []])]), .play 3 (.branch [.play 6 (.branch []), .play 6 (.branch []), .play 2 (.branch [.branch []])])]), .play 6 (.branch [.play 3 (.branch []), .play 5 (.branch [.play 7 (.branch [.branch []]), .play 1 (.branch [.branch []]), .play 1 (.branch [.branch []])]), .play 3 (.branch []), .play 3 (.branch []), .play 3 (.branch [])]), .play 5 (.branch [.play 7 (.branch [.play 6 (.branch [.branch []]), .play 2 (.branch [.branch []]), .play 2 (.branch [.branch []])]), .play 6 (.branch [.play 7 (.branch [.branch []]), .play 1 (.branch [.branch []]), .play 1 (.branch [.branch []])]), .play 2 (.branch [.play 8 (.branch []), .play 1 (.branch []), .play 1 (.branch [])]), .play 1 (.branch [.play 6 (.branch [.branch []]), .play 2 (.branch []), .play 2 (.branch [])]), .play 1 (.branch [.play 6 (.branch [.branch []]), .play 2 (.branch []), .play 2 (.branch [])])]), .play 3 (.branch [.play 6 (.branch []), .play 6 (.branch []), .play 2 (.branch [.play 7 (.branch [.branch []]), .play 1 (.branch []), .play 1 (.branch [])]), .play 6 (.branch []), .play 6 (.branch [])]), .play 2 (.branch [.play 7 (.branch [.play 5 (.branch [.branch []]), .play 3 (.branch [.branch []]), .play 3 (.branch [.branch []])]), .play 1 (.branch []), .play 1 (.branch []), .play 1 (.branch []), .play 1 (.branch [])]), .play 1 (.branch [.play 6 (.branch [.play 5 (.branch [.branch []]), .play 3 (.branch []), .play 3 (.branch [])]), .play 2 (.branch []), .play 2 (.branch []), .play 2 (.branch []), .play 2 (.branch [])]), .play 2 (.branch [.play 7 (.branch [.play 5 (.branch [.branch []]), .play 3 (.branch [.branch []]), .play 3 (.branch [.branch []])]), .play 1 (.branch []), .play 1 (.branch []), .play 1 (.branch []), .play 1 (.branch [])])]), .play 4 (.branch [.play 1 (.branch [.play 7 (.branch []), .play 7 (.branch []), .play 7 (.branch []), .play 6 (.branch [.play 8 (.branch [.branch []]), .play 2 (.branch []), .play 2 (.branch [])]), .play 7 (.branch [])]), .play 0 (.branch [.play 8 (.branch []), .play 8 (.branch []), .play 8 (.branch []), .play 8 (.branch []), .play 2 (.branch [.play 6 (.branch []), .play 7 (.branch [.branch []]), .play 6 (.branch [])])]), .play 8 (.branch [.play 1 (.branch [.play 7 (.branch []), .play 7 (.branch []), .play 3 (.branch [.branch []])]), .play 0 (.branch []), .play 0 (.branch []), .play 0 (.branch []), .play 0 (.branch [])]), .play 0 (.branch [.play 8 (.branch []), .play 8 (.branch []), .play 8 (.branch []), .play 8 (.branch []), .play 2 (.branch [.play 6 (.branch []), .play 1 (.branch []), .play 1 (.branch [])])]), .play 1 (.branch [.play 7 (.branch []), .play 7 (.branch []), .play 7 (.branch []), .play 8 (.branch [.play 3 (.branch [.branch []]), .play 0 (.branch []), .play 0 (.branch [])]), .play 7 (.branch [])]), .play 2 (.branch [.play 6 (.branch []), .play 6 (.branch []), .play 6 (.branch []), .play 8 (.branch [.play 3 (.branch [.branch []]), .play 0 (.branch []), .play 0 (.branch [])]), .play 6 (.branch [])]), .play 2 (.branch [.play 6 (.branch []), .play 6 (.branch []), .play 6 (.branch []), .play 7 (.branch [.play 1 (.branch []), .play 0 (.branch [.branch []]), .play 1 (.branch [])]), .play 6 (.branch [])])]), .play 4 (.branch [.play 3 (.branch [.play 5 (.branch []), .play 5 (.branch []), .play 1 (.branch [.play 7 (.branch []), .play 8 (.branch [.branch []]), .play 7 (.branch [])]), .play 5 (.branch []), .play 5 (.branch [])]), .play 3 (.branch [.play 5 (.branch []), .play 5 (.branch []), .play 8 (.branch [.play 2 (.branch [.branch []]), .play 0 (.branch []), .play 0 (.branch [])]), .play 5 (.branch []), .play 5 (.branch [])]), .play 1 (.branch [.play 7 (.branch []), .play 7 (.branch []), .play 7 (.branch []), .play 8 (.branch [.play 3 (.branch [.branch []]), .play 0 (.branch []), .play 0 (.branch [])]), .play 7 (.branch [])]), .play 0 (.branch [.play 8 (.branch []), .play 8 (.branch []), .play 8 (.branch []), .play 8 (.branch []), .play 7 (.branch [.play 2 (.branch [.branch []]), .play 1 (.branch []), .play 1 (.branch [])])]), .play 1 (.branch [.play 7 (.branch []), .play 7 (.branch []), .play 7 (.branch []), .play 8 (.branch [.play 3 (.branch [.branch []]), .play 0 (.branch []), .play 0 (.branch [])]), .play 7 (.branch [])]), .play 8 (.branch [.play 3 (.branch [.play 5 (.branch []), .play 5 (.branch []), .play 1 (.branch [.branch []])]), .play 0 (.branch []), .play 0 (.branch []), .play 0 (.branch []), .play 0 (.branch [])]), .play 7 (.branch [.play 1 (.branch []), .play 3 (.branch [.play 5 (.branch []), .play 5 (.branch []), .play 2 (.branch [.branch []])]), .play 1 (.branch []), .play 1 (.branch []), .play 1 (.branch [])])]), .play 4 (.branch [.play 3 (.branch [.play 5 (.branch []), .play 5 (.branch []), .play 2 (.branch [.play 6 (.branch []), .play 8 (.branch [.branch []]), .play 6 (.branch [])]), .play 5 (.branch []), .play 5 (.branch [])]), .play 0 (.branch [.play 8 (.branch []), .play 8 (.branch []), .play 8 (.branch []), .play 8 (.branch []), .play 6 (.branch [.play 3 (.branch []), .play 2 (.branch []), .play 2 (.branch [])])]), .play 3 (.branch [.play 5 (.branch []), .play 5 (.branch []), .play 8 (.branch [.play 1 (.branch [.branch []]), .play 0 (.branch []), .play 0 (.branch [])]), .play 5 (.branch []), .play 5 (.branch [])]), .play 0 (.branch [.play 8 (.branch []), .play 8 (.branch []), .play 8 (.branch []), .play 8 (.branch []), .play 6 (.branch [.play 2 (.branch []), .play 5 (.branch [.branch []]), .play 2 (.branch [])])]), .play 2 (.branch [.play 6 (.branch []), .play 6 (.branch []), .play 6 (.branch []), .play 8 (.branch [.play 3 (.branch [.branch []]), .play 0 (.branch []), .play 0 (.branch [])]), .play 6 (.branch [])]), .play 8 (.branch [.play 3 (.branch [.play 5 (.branch []), .play 5 (.branch []), .play 1 (.branch [.branch []])]), .play 0 (.branch []), .play 0 (.branch []), .play 0 (.branch []), .play 0 (.branch [])]), .play 6 (.branch [.play 2 (.branch []), .play 2 (.branch []), .play 5 (.branch [.play 3 (.branch []), .play 3 (.branch []), .play 0 (.branch [.branch []])]), .play 2 (.branch []), .play 2 (.branch [])])]), .play 4 (.branch [.play 1 (.branch [.play 7 (.branch []), .play 7 (.branch []), .play 7 (.branch []), .play 7 (.branch []), .play 6 (.branch [.play 5 (.branch [.branch []]), .play 2 (.branch []), .play 2 (.branch [])])]), .play 3 (.branch [.play 5 (.branch []), .play 5 (.branch []), .play 2 (.branch [.play 6 (.branch []), .play 7 (.branch [.branch []]), .play 6 (.branch [])]), .play 5 (.branch []), .play 5 (.branch [])]), .play 5 (.branch [.play 3 (.branch []), .play 3 (.branch []), .play 1 (.branch [.play 7 (.branch []), .play 7 (.branch []), .play 6 (.branch [.branch []])]), .play 3 (.branch []), .play 3 (.branch [])]), .play 1 (.branch [.play 7 (.branch []), .play 7 (.branch []), .play 7 (.branch []), .play 7 (.branch []), .play 6 (.branch [.play 2 (.branch []), .play 5 (.branch [.branch []]), .play 2 (.branch [])])]), .play 2 (.branch [.play 6 (.branch []), .play 6 (.branch []), .play 6 (.branch []), .play 7 (.branch [.play 1 (.branch []), .play 0 (.branch [.branch []]), .play 1 (.branch [])]), .play 6 (.branch [])]), .play 7 (.branch [.play 1 (.branch []), .play 3 (.branch [.play 5 (.branch []), .play 5 (.branch []), .play 2 (.branch [.branch []])]), .play 1 (.branch []), .play 1 (.branch []), .play 1 (.branch [])]), .play 6 (.branch [.play 2 (.branch []), .play 2 (.branch []), .play 5 (.branch [.play 3 (.branch []), .play 3 (.branch []), .play 0 (.branch [.branch []])]), .play 2 (.branch []), .play 2 (.branch [])])])]

set_option maxHeartbeats 4000000 in
theorem certUB_check : ubCheck 0 9 certUB empty9 0 false = true := by decide

set_option maxHeartbeats 4000000 in
theorem certLB_check : lbCheck 0 9 certLB empty9 0 false = true := by decide

/-! ### Order and sign lemmas for the embedded numbers -/

theorem jle_refl (a : JNum) : jle a a := by
  cases a <;> simp [jle, JNum.lt]

theorem jle_of_lt {a b : JNum} (h : JNum.lt a b = true) : jle a b := by
  cases a <;> cases b <;> simp_all [jle, JNum.lt] <;> omega

theorem jle_trans {a b c : JNum} (h₁ : jle a b) (h₂ : jle b c) : jle a c := by
  cases a <;> cases b <;> cases c <;> simp_all [jle, JNum.lt] <;> omega

theorem jle_lt_trans {a b c : JNum} (h₁ : jle a b) (h₂ : JNum.lt b c = true) :
    JNum.lt a c = true := by
  cases a <;> cases b <;> cases c <;> simp_all [jle, JNum.lt] <;> omega

theorem lt_jle_trans {a b c : JNum} (h₁ : JNum.lt a b = true) (h₂ : jle b c) :
    JNum.lt a c = true := by
  cases a <;> cases b <;> cases c <;> simp_all [jle, JNum.lt] <;> omega

theorem jle_antisymm_fin {a : JNum} {s : Int} (h₁ : jle a (.fin s)) (h₂ : jle (.fin s) a) :
    a = .fin s := by
  cases a <;> simp_all [jle, JNum.lt] <;> omega

theorem jle_fin_fin {a b : Int} : jle (.fin a) (.fin b) ↔ a ≤ b := by
  simp [jle, JNum.lt]

theorem negInf_jle (a : JNum) : jle .negInf a := by
  cases a <;> simp [jle, JNum.lt]

theorem jle_posInf (a : JNum) : jle a .posInf := by
  cases a <;> simp [jle, JNum.lt]

theorem negInf_lt_fin (v : Int) : JNum.lt .negInf (.fin v) = true := rfl

theorem fin_lt_posInf (v : Int) : JNum.lt (.fin v) .posInf = true := rfl

theorem jle_jmax_left (a b : JNum) : jle a (jmax a b) := by
  unfold jmax
  split
  · exact jle_of_lt (by assumption)
  · exact jle_refl a

theorem jle_jmax_right (a b : JNum) : jle b (jmax a b) := by
  unfold jmax
  split
  · exact jle_refl b
  · rename_i h
    cases a <;> cases b <;> simp_all [jle, JNum.lt] <;> omega

theorem jmax_jle {a b c : JNum} (h₁ : jle a c) (h₂ : jle b c) : jle (jmax a b) c := by
  unfold jmax
  split <;> assumption

theorem jmax_cases (a b : JNum) : jmax a b = a ∨ jmax a b = b := by
  unfold jmax
  split
  · exact Or.inr rfl
  · exact Or.inl rfl

theorem jmin_jle_left (a b : JNum) : jle (jmin a b) a := by
  unfold jmin
  split
  · exact jle_of_lt (by assumption)
  · exact jle_refl a

theorem jmin_jle_right (a b : JNum) : jle (jmin a b) b := by
  unfold jmin
  split
  · exact jle_refl b
  · rename_i h
    cases a <;> cases b <;> simp_all [jle, JNum.lt] <;> omega

theorem jle_jmin {a b c : JNum} (h₁ : jle c a) (h₂ : jle c b) : jle c (jmin a b) := by
  unfold jmin
  split <;> assumption

theorem jmin_cases (a b : JNum) : jmin a b = a ∨ jmin a b = b := by
  unfold jmin
  split
  · exact Or.inr rfl
  · exact Or.inl rfl

theorem jsgn_jmax (a b : JNum) : jsgn (jmax a b) = max (jsgn a) (jsgn b) := by
  cases a <;> cases b <;>
    simp_all [jmax, JNum.lt, jsgn] <;> split_ifs <;> simp_all [jsgn] <;> omega

theorem jsgn_jmin (a b : JNum) : jsgn (jmin a b) = min (jsgn a) (jsgn b) := by
  cases a <;> cases b <;>
    simp_all [jmin, JNum.lt, jsgn] <;> split_ifs <;> simp_all [jsgn] <;> omega

theorem jsgn_mono {a b : JNum} (h : jle a b) : jsgn a ≤ jsgn b := by
  cases a <;> cases b <;> simp_all [jle, JNum.lt, jsgn] <;> split_ifs <;> omega

theorem jsgn_bounds (a : JNum) : -1 ≤ jsgn a ∧ jsgn a ≤ 1 := by
  cases a <;> simp [jsgn] <;> split_ifs <;> omega

/-! ### Board and list lemmas -/

theorem getD_set_self {b : Board} {i : Nat} (h : i < b.length) (v : Cell) :
    (b.set i v).getD i none = v := by
  simp [h]

theorem getD_set_ne {b : Board} {i j : Nat} (h : i ≠ j) (v : Cell) :
    (b.set i v).getD j none = b.getD j none := by
  simp [List.getElem?_set_ne h]

theorem set_none_id : ∀ (b : Board) (i : Nat), b.getD i none = none → b.set i none = b := by
  intro b
  induction b with
  | nil => intro i _; rfl
  | cons hd tl ih =>
      intro i h
      match i with
      | 0 => simp_all [List.getD]
      | i + 1 => simp_all [List.getD]

theorem countNone_le_length : ∀ b : Board, countNone b ≤ b.length := by
  intro b
  induction b with
  | nil => simp [countNone]
  | cons hd tl ih =>
      match hd with
      | none => simp [countNone]; omega
      | some _ => simp [countNone]; omega

theorem countNone_set_some : ∀ (b : Board) (i : Nat) (m : Mark), i < b.length →
    b.getD i none = none → countNone (b.set i (some m)) + 1 = countNone b := by
  intro b
  induction b with
  | nil => intro i m h; simp at h
  | cons hd tl ih =>
      intro i m h he
      match i with
      | 0 =>
          simp [List.getD] at he
          simp [he, List.set, countNone]
      | i + 1 =>
          simp [List.getD] at he
          simp at h
          have := ih i m (by omega) (by simpa using he)
          match hd with
          | none => simp [List.set, countNone]; omega
          | some _ => simp [List.set, countNone]; omega

theorem countNone_pos_of_empty {b : Board} {i : Nat} (h : i < b.length)
    (he : b.getD i none = none) : 0 < countNone b := by
  induction b generalizing i with
  | nil => simp at h
  | cons hd tl ih =>
      match i with
      | 0 =>
          simp [List.getD] at he
          simp [he, countNone]
      | i + 1 =>
          simp at h
          simp [List.getD] at he
          have := ih (i := i) (by omega) (by simpa using he)
          match hd with
          | none => simp [countNone]
          | some _ => simp [countNone]; omega

theorem mem_emptyIdxAux : ∀ (b : Board) (k i : Nat),
    i ∈ emptyIdxAux k b ↔ ∃ j, j < b.length ∧ b.getD j none = none ∧ i = k + j := by
  intro b
  induction b with
  | nil => intro k i; simp [emptyIdxAux]
  | cons hd tl ih =>
      intro k i
      match hd with
      | none =>
          simp only [emptyIdxAux, List.mem_cons, ih]
          constructor
          · rintro (rfl | ⟨j, hj, hg, rfl⟩)
            · exact ⟨0, by simp [List.getD]⟩
            · exact ⟨j + 1, by simp; omega, by simpa [List.getD] using hg, by omega⟩
          · rintro ⟨j, hj, hg, rfl⟩
            match j with
            | 0 => exact Or.inl (by omega)
            | j + 1 =>
                refine Or.inr ⟨j, by simp at hj; omega, by simpa [List.getD] using hg, by omega⟩
      | some m =>
          simp only [emptyIdxAux, ih]
          constructor
          · rintro ⟨j, hj, hg, rfl⟩
            exact ⟨j + 1, by simp; omega, by simpa [List.getD] using hg, by omega⟩
          · rintro ⟨j, hj, hg, rfl⟩
            match j with
            | 0 => simp [List.getD] at hg
            | j + 1 =>
                exact ⟨j, by simp at hj; omega, by simpa [List.getD] using hg, by omega⟩

theorem mem_emptyIdx {b : Board} {i : Nat} :
    i ∈ emptyIdx b ↔ i < b.length ∧ b.getD i none = none := by
  unfold emptyIdx
  rw [mem_emptyIdxAux]
  constructor
  · rintro ⟨j, hj, hg, rfl⟩
    simp only [Nat.zero_add]
    exact ⟨hj, hg⟩
  · rintro ⟨hj, hg⟩
    exact ⟨i, hj, hg, by omega⟩

theorem foldl_congr_mem {α β : Type _} {f g : β → α → β} :
    ∀ (l : List α), (∀ acc, ∀ a ∈ l, f acc a = g acc a) →
    ∀ acc, l.foldl f acc = l.foldl g acc := by
  intro l
  induction l with
  | nil => intro _ acc; rfl
  | cons hd tl ih =>
      intro h acc
      simp only [List.foldl_cons]
      rw [h acc hd (by simp)]
      exact ih (fun acc a ha => h acc a (by simp [ha])) _

theorem findSome?_eq_some_decomp {α β : Type _} {f : α → Option β} :
    ∀ {l : List α} {b : β}, l.findSome? f = some b ↔
      ∃ l₁ a l₂, l = l₁ ++ a :: l₂ ∧ f a = some b ∧ ∀ x ∈ l₁, f x = none := by
  intro l
  induction l with
  | nil => intro b; simp [List.findSome?]
  | cons hd tl ih =>
      intro b
      rw [List.findSome?_cons]
      constructor
      · intro h
        match hf : f hd with
        | some v =>
            rw [hf] at h
            exact ⟨[], hd, tl, by simp, by simp [hf, ← h], by simp⟩
        | none =>
            rw [hf] at h
            obtain ⟨l₁, a, l₂, rfl, ha, hn⟩ := ih.1 h
            exact ⟨hd :: l₁, a, l₂, by simp, ha, by
              intro x hx
              rcases List.mem_cons.1 hx with rfl | hx
              · exact hf
              · exact hn x hx⟩
      · rintro ⟨l₁, a, l₂, he, ha, hn⟩
        match l₁, he with
        | [], he =>
            simp at he
            obtain ⟨rfl, rfl⟩ := he
            rw [ha]
        | x :: l₁, he =>
            simp at he
            obtain ⟨rfl, he⟩ := he
            rw [hn hd (by simp)]
            exact ih.2 ⟨l₁, a, l₂, he, ha, fun y hy => hn y (by simp [hy])⟩

/-! ### Structure of `checkGameState` and `minimax` -/

theorem countNone_eq_zero : ∀ {b : Board}, countNone b = 0 ↔ ∀ x ∈ b, x ≠ none := by
  intro b
  induction b with
  | nil => simp [countNone]
  | cons hd tl ih =>
      match hd with
      | none => simp [countNone]
      | some m => simp [countNone, ih]

theorem exists_empty_of_inProgress {b : Board} (h : AIPlayer.checkGameState b = none) :
    ∃ i, i < b.length ∧ b.getD i none = none := by
  unfold AIPlayer.checkGameState at h
  split at h
  · simp at h
  · by_cases hall : (b.all fun cell => cell != none) = true
    · rw [if_pos hall] at h
      simp at h
    · rw [Bool.not_eq_true, List.all_eq_false] at hall
      obtain ⟨x, hx, hpx⟩ := hall
      simp only [bne_iff_ne, ne_eq, Decidable.not_not] at hpx
      obtain ⟨n, hn, he⟩ := List.getElem_of_mem hx
      exact ⟨n, hn, by simp [List.getD, List.getElem?_eq_getElem hn, he, hpx]⟩

theorem checkGameState_of_full {b : Board} (h : countNone b = 0) :
    ∃ r, AIPlayer.checkGameState b = some r := by
  unfold AIPlayer.checkGameState
  split
  · exact ⟨_, rfl⟩
  · rw [if_pos]
    · exact ⟨.draw, rfl⟩
    · rw [List.all_eq_true]
      intro x hx
      simpa using countNone_eq_zero.1 h x hx

theorem minimaxF_terminal_O {fuel : Nat} {b : Board} {d : Nat} {m : Bool}
    (h : AIPlayer.checkGameState b = some (.mark .O)) :
    AIPlayer.minimaxF fuel b d m = .fin (10 - (d : Int)) := by
  cases fuel with
  | zero => rw [AIPlayer.minimaxF.eq_1, h]
  | succ k => rw [AIPlayer.minimaxF.eq_2, h]

theorem minimaxF_terminal_X {fuel : Nat} {b : Board} {d : Nat} {m : Bool}
    (h : AIPlayer.checkGameState b = some (.mark .X)) :
    AIPlayer.minimaxF fuel b d m = .fin ((d : Int) - 10) := by
  cases fuel with
  | zero => rw [AIPlayer.minimaxF.eq_1, h]
  | succ k => rw [AIPlayer.minimaxF.eq_2, h]

theorem minimaxF_terminal_draw {fuel : Nat} {b : Board} {d : Nat} {m : Bool}
    (h : AIPlayer.checkGameState b = some .draw) :
    AIPlayer.minimaxF fuel b d m = .fin 0 := by
  cases fuel with
  | zero => rw [AIPlayer.minimaxF.eq_1, h]
  | succ k => rw [AIPlayer.minimaxF.eq_2, h]

theorem minimaxF_terminal_irrel {fuel fuel' : Nat} {b : Board} {d : Nat} {m m' : Bool}
    {r : AIResult} (h : AIPlayer.checkGameState b = some r) :
    AIPlayer.minimaxF fuel b d m = AIPlayer.minimaxF fuel' b d m' := by
  rcases r with mk | _
  · cases mk
    · rw [minimaxF_terminal_X h, minimaxF_terminal_X h]
    · rw [minimaxF_terminal_O h, minimaxF_terminal_O h]
  · rw [minimaxF_terminal_draw h, minimaxF_terminal_draw h]

theorem minimax_terminal_O {b : Board} {d : Nat} {m : Bool}
    (h : AIPlayer.checkGameState b = some (.mark .O)) :
    AIPlayer.minimax b d m = .fin (10 - (d : Int)) := minimaxF_terminal_O h

theorem minimax_terminal_X {b : Board} {d : Nat} {m : Bool}
    (h : AIPlayer.checkGameState b = some (.mark .X)) :
    AIPlayer.minimax b d m = .fin ((d : Int) - 10) := minimaxF_terminal_X h

theorem minimax_terminal_draw {b : Board} {d : Nat} {m : Bool}
    (h : AIPlayer.checkGameState b = some .draw) :
    AIPlayer.minimax b d m = .fin 0 := minimaxF_terminal_draw h

theorem minimaxF_inProgress_max {fuel : Nat} {b : Board} {d : Nat}
    (h : AIPlayer.checkGameState b = none) :
    AIPlayer.minimaxF (fuel + 1) b d true =
      (List.range b.length).foldl
        (maxStep b (fun i => AIPlayer.minimaxF fuel (b.set i (some .O)) (d + 1) false))
        .negInf := by
  rw [AIPlayer.minimaxF.eq_2, h]
  rfl

theorem minimaxF_inProgress_min {fuel : Nat} {b : Board} {d : Nat}
    (h : AIPlayer.checkGameState b = none) :
    AIPlayer.minimaxF (fuel + 1) b d false =
      (List.range b.length).foldl
        (minStep b (fun i => AIPlayer.minimaxF fuel (b.set i (some .X)) (d + 1) true))
        .posInf := by
  rw [AIPlayer.minimaxF.eq_2, h]
  rfl

theorem minimaxF_fuel_irrel : ∀ (fuel fuel' : Nat) (b : Board) (d : Nat) (m : Bool),
    countNone b ≤ fuel → countNone b ≤ fuel' →
    AIPlayer.minimaxF fuel b d m = AIPlayer.minimaxF fuel' b d m := by
  intro fuel
  induction fuel with
  | zero =>
      intro fuel' b d m h h'
      obtain ⟨r, hr⟩ := checkGameState_of_full (b := b) (by omega)
      exact minimaxF_terminal_irrel hr
  | succ k ih =>
      intro fuel' b d m h h'
      cases hc : AIPlayer.checkGameState b with
      | some r => exact minimaxF_terminal_irrel hc
      | none =>
          obtain ⟨i, hi, he⟩ := exists_empty_of_inProgress hc
          have hpos : 0 < countNone b := countNone_pos_of_empty hi he
          have hf1 : 0 < fuel' := Nat.lt_of_lt_of_le hpos h'
          obtain ⟨k', hk'⟩ : ∃ k', fuel' = k' + 1 := ⟨fuel' - 1, by omega⟩
          subst hk'
          cases m with
          | true =>
              rw [minimaxF_inProgress_max hc, minimaxF_inProgress_max hc]
              apply foldl_congr_mem
              intro acc j hj
              unfold maxStep
              by_cases hje : b.getD j none = none
              · have hcount := countNone_set_some b j .O (List.mem_range.1 hj) hje
                have hrw := ih k' (b.set j (some .O)) (d + 1) false (by omega) (by omega)
                simp only [hrw]
              · simp only [List.getD_eq_getElem?_getD] at hje
                simp [hje]
          | false =>
              rw [minimaxF_inProgress_min hc, minimaxF_inProgress_min hc]
              apply foldl_congr_mem
              intro acc j hj
              unfold minStep
              by_cases hje : b.getD j none = none
              · have hcount := countNone_set_some b j .X (List.mem_range.1 hj) hje
                have hrw := ih k' (b.set j (some .X)) (d + 1) true (by omega) (by omega)
                simp only [hrw]
              · simp only [List.getD_eq_getElem?_getD] at hje
                simp [hje]

theorem minimax_inProgress_max {b : Board} {d : Nat}
    (h : AIPlayer.checkGameState b = none) :
    AIPlayer.minimax b d true =
      (List.range b.length).foldl
        (maxStep b (fun i => AIPlayer.minimax (b.set i (some .O)) (d + 1) false))
        .negInf := by
  obtain ⟨i, hi, he⟩ := exists_empty_of_inProgress h
  have hpos : 0 < countNone b := countNone_pos_of_empty hi he
  unfold AIPlayer.minimax
  obtain ⟨k, hk⟩ : ∃ k, countNone b = k + 1 := ⟨countNone b - 1, by omega⟩
  rw [hk, minimaxF_inProgress_max h]
  apply foldl_congr_mem
  intro acc j hj
  unfold maxStep
  by_cases hje : b.getD j none = none
  · have hcount := countNone_set_some b j .O (List.mem_range.1 hj) hje
    have hrw := minimaxF_fuel_irrel k (countNone (b.set j (some .O)))
      (b.set j (some .O)) (d + 1) false (by omega) (by omega)
    simp only [hrw]
  · simp only [List.getD_eq_getElem?_getD] at hje
    simp [hje]

theorem minimax_inProgress_min {b : Board} {d : Nat}
    (h : AIPlayer.checkGameState b = none) :
    AIPlayer.minimax b d false =
      (List.range b.length).foldl
        (minStep b (fun i => AIPlayer.minimax (b.set i (some .X)) (d + 1) true))
        .posInf := by
  obtain ⟨i, hi, he⟩ := exists_empty_of_inProgress h
  have hpos : 0 < countNone b := countNone_pos_of_empty hi he
  unfold AIPlayer.minimax
  obtain ⟨k, hk⟩ : ∃ k, countNone b = k + 1 := ⟨countNone b - 1, by omega⟩
  rw [hk, minimaxF_inProgress_min h]
  apply foldl_congr_mem
  intro acc j hj
  unfold minStep
  by_cases hje : b.getD j none = none
  · have hcount := countNone_set_some b j .X (List.mem_range.1 hj) hje
    have hrw := minimaxF_fuel_irrel k (countNone (b.set j (some .X)))
      (b.set j (some .X)) (d + 1) true (by omega) (by omega)
    simp only [hrw]
  · simp only [List.getD_eq_getElem?_getD] at hje
    simp [hje]

/-! ### Fold lemmas for the minimax loops -/

theorem maxStep_empty {b : Board} {f : Nat → JNum} {acc : JNum} {i : Nat}
    (he : b.getD i none = none) : maxStep b f acc i = jmax (f i) acc := by
  unfold maxStep
  rw [he]
  simp

theorem maxStep_occupied {b : Board} {f : Nat → JNum} {acc : JNum} {i : Nat}
    (he : ¬ b.getD i none = none) : maxStep b f acc i = acc := by
  unfold maxStep
  rw [if_neg (by simpa using he)]

theorem minStep_empty {b : Board} {f : Nat → JNum} {acc : JNum} {i : Nat}
    (he : b.getD i none = none) : minStep b f acc i = jmin (f i) acc := by
  unfold minStep
  rw [he]
  simp

theorem minStep_occupied {b : Board} {f : Nat → JNum} {acc : JNum} {i : Nat}
    (he : ¬ b.getD i none = none) : minStep b f acc i = acc := by
  unfold minStep
  rw [if_neg (by simpa using he)]

theorem foldl_maxStep_ge_acc (b : Board) (f : Nat → JNum) :
    ∀ (l : List Nat) (acc : JNum), jle acc (l.foldl (maxStep b f) acc) := by
  intro l
  induction l with
  | nil => intro acc; exact jle_refl acc
  | cons j tl ih =>
      intro acc
      rw [List.foldl_cons]
      refine jle_trans ?_ (ih (maxStep b f acc j))
      by_cases he : b.getD j none = none
      · rw [maxStep_empty he]; exact jle_jmax_right _ _
      · rw [maxStep_occupied he]; exact jle_refl acc

theorem foldl_maxStep_ge_mem (b : Board) (f : Nat → JNum) :
    ∀ (l : List Nat) (acc : JNum) (i : Nat), i ∈ l → b.getD i none = none →
      jle (f i) (l.foldl (maxStep b f) acc) := by
  intro l
  induction l with
  | nil => intro acc i hi; simp at hi
  | cons j tl ih =>
      intro acc i hi he
      rw [List.foldl_cons]
      rcases List.mem_cons.1 hi with rfl | hi
      · refine jle_trans ?_ (foldl_maxStep_ge_acc b f tl _)
        rw [maxStep_empty he]
        exact jle_jmax_left _ _
      · exact ih _ i hi he

theorem foldl_maxStep_cases (b : Board) (f : Nat → JNum) :
    ∀ (l : List Nat) (acc : JNum), l.foldl (maxStep b f) acc = acc ∨
      ∃ i, i ∈ l ∧ b.getD i none = none ∧ l.foldl (maxStep b f) acc = f i := by
  intro l
  induction l with
  | nil => intro acc; exact Or.inl rfl
  | cons j tl ih =>
      intro acc
      rw [List.foldl_cons]
      by_cases he : b.getD j none = none
      · rw [maxStep_empty he]
        rcases ih (jmax (f j) acc) with h1 | ⟨i, hi, he2, h1⟩
        · rcases jmax_cases (f j) acc with h2 | h2
          · exact Or.inr ⟨j, by simp, he, by rw [h1, h2]⟩
          · exact Or.inl (by rw [h1, h2])
        · exact Or.inr ⟨i, by simp [hi], he2, h1⟩
      · rw [maxStep_occupied he]
        rcases ih acc with h1 | ⟨i, hi, he2, h1⟩
        · exact Or.inl h1
        · exact Or.inr ⟨i, by simp [hi], he2, h1⟩

theorem foldl_maxStep_le (b : Board) (f : Nat → JNum) :
    ∀ (l : List Nat) (acc c : JNum), jle acc c →
      (∀ i ∈ l, b.getD i none = none → jle (f i) c) →
      jle (l.foldl (maxStep b f) acc) c := by
  intro l
  induction l with
  | nil => intro acc c h _; exact h
  | cons j tl ih =>
      intro acc c hacc hmem
      rw [List.foldl_cons]
      refine ih _ c ?_ (fun i hi he => hmem i (by simp [hi]) he)
      by_cases he : b.getD j none = none
      · rw [maxStep_empty he]
        exact jmax_jle (hmem j (by simp) he) hacc
      · rw [maxStep_occupied he]
        exact hacc

theorem foldl_maxStep_jsgn (b : Board) (f g : Nat → JNum) :
    ∀ (l : List Nat) (acc acc₂ : JNum),
      (∀ i ∈ l, b.getD i none = none → jsgn (f i) = jsgn (g i)) →
      jsgn acc = jsgn acc₂ →
      jsgn (l.foldl (maxStep b f) acc) = jsgn (l.foldl (maxStep b g) acc₂) := by
  intro l
  induction l with
  | nil => intro acc acc₂ _ h; exact h
  | cons j tl ih =>
      intro acc acc₂ hmem hacc
      rw [List.foldl_cons, List.foldl_cons]
      refine ih _ _ (fun i hi he => hmem i (by simp [hi]) he) ?_
      by_cases he : b.getD j none = none
      · rw [maxStep_empty he, maxStep_empty he, jsgn_jmax, jsgn_jmax,
          hmem j (by simp) he, hacc]
      · rw [maxStep_occupied he, maxStep_occupied he]
        exact hacc

theorem foldl_minStep_le_acc (b : Board) (f : Nat → JNum) :
    ∀ (l : List Nat) (acc : JNum), jle (l.foldl (minStep b f) acc) acc := by
  intro l
  induction l with
  | nil => intro acc; exact jle_refl acc
  | cons j tl ih =>
      intro acc
      rw [List.foldl_cons]
      refine jle_trans (ih (minStep b f acc j)) ?_
      by_cases he : b.getD j none = none
      · rw [minStep_empty he]; exact jmin_jle_right _ _
      · rw [minStep_occupied he]; exact jle_refl acc

theorem foldl_minStep_le_mem (b : Board) (f : Nat → JNum) :
    ∀ (l : List Nat) (acc : JNum) (i : Nat), i ∈ l → b.getD i none = none →
      jle (l.foldl (minStep b f) acc) (f i) := by
  intro l
  induction l with
  | nil => intro acc i hi; simp at hi
  | cons j tl ih =>
      intro acc i hi he
      rw [List.foldl_cons]
      rcases List.mem_cons.1 hi with rfl | hi
      · refine jle_trans (foldl_minStep_le_acc b f tl _) ?_
        rw [minStep_empty he]
        exact jmin_jle_left _ _
      · exact ih _ i hi he

theorem foldl_minStep_cases (b : Board) (f : Nat → JNum) :
    ∀ (l : List Nat) (acc : JNum), l.foldl (minStep b f) acc = acc ∨
      ∃ i, i ∈ l ∧ b.getD i none = none ∧ l.foldl (minStep b f) acc = f i := by
  intro l
  induction l with
  | nil => intro acc; exact Or.inl rfl
  | cons j tl ih =>
      intro acc
      rw [List.foldl_cons]
      by_cases he : b.getD j none = none
      · rw [minStep_empty he]
        rcases ih (jmin (f j) acc) with h1 | ⟨i, hi, he2, h1⟩
        · rcases jmin_cases (f j) acc with h2 | h2
          · exact Or.inr ⟨j, by simp, he, by rw [h1, h2]⟩
          · exact Or.inl (by rw [h1, h2])
        · exact Or.inr ⟨i, by simp [hi], he2, h1⟩
      · rw [minStep_occupied he]
        rcases ih acc with h1 | ⟨i, hi, he2, h1⟩
        · exact Or.inl h1
        · exact Or.inr ⟨i, by simp [hi], he2, h1⟩

theorem foldl_minStep_ge (b : Board) (f : Nat → JNum) :
    ∀ (l : List Nat) (acc c : JNum), jle c acc →
      (∀ i ∈ l, b.getD i none = none → jle c (f i)) →
      jle c (l.foldl (minStep b f) acc) := by
  intro l
  induction l with
  | nil => intro acc c h _; exact h
  | cons j tl ih =>
      intro acc c hacc hmem
      rw [List.foldl_cons]
      refine ih _ c ?_ (fun i hi he => hmem i (by simp [hi]) he)
      by_cases he : b.getD j none = none
      · rw [minStep_empty he]
        exact jle_jmin (hmem j (by simp) he) hacc
      · rw [minStep_occupied he]
        exact hacc

theorem foldl_minStep_jsgn (b : Board) (f g : Nat → JNum) :
    ∀ (l : List Nat) (acc acc₂ : JNum),
      (∀ i ∈ l, b.getD i none = none → jsgn (f i) = jsgn (g i)) →
      jsgn acc = jsgn acc₂ →
      jsgn (l.foldl (minStep b f) acc) = jsgn (l.foldl (minStep b g) acc₂) := by
  intro l
  induction l with
  | nil => intro acc acc₂ _ h; exact h
  | cons j tl ih =>
      intro acc acc₂ hmem hacc
      rw [List.foldl_cons, List.foldl_cons]
      refine ih _ _ (fun i hi he => hmem i (by simp [hi]) he) ?_
      by_cases he : b.getD j none = none
      · rw [minStep_empty he, minStep_empty he, jsgn_jmin, jsgn_jmin,
          hmem j (by simp) he, hacc]
      · rw [minStep_occupied he, minStep_occupied he]
        exact hacc

theorem minimax_fin : ∀ (b : Board) (d : Nat) (m : Bool), ∃ v, AIPlayer.minimax b d m = .fin v := by
  intro b
  generalize hn : countNone b = n
  induction n using Nat.strong_induction_on generalizing b with
  | _ n ih =>
      intro d m
      cases hc : AIPlayer.checkGameState b with
      | some r =>
          rcases r with mk | _
          · cases mk
            · exact ⟨_, minimax_terminal_X hc⟩
            · exact ⟨_, minimax_terminal_O hc⟩
          · exact ⟨_, minimax_terminal_draw hc⟩
      | none =>
          obtain ⟨i, hi, he⟩ := exists_empty_of_inProgress hc
          cases m with
          | true =>
              have hcount := countNone_set_some b i .O hi he
              rw [minimax_inProgress_max hc]
              rcases foldl_maxStep_cases b
                (fun i => AIPlayer.minimax (b.set i (some .O)) (d + 1) false)
                (List.range b.length) .negInf with h1 | ⟨j, hj, hje, h1⟩
              · exfalso
                have hge := foldl_maxStep_ge_mem b
                  (fun i => AIPlayer.minimax (b.set i (some .O)) (d + 1) false)
                  (List.range b.length) .negInf i (List.mem_range.2 hi) he
                rw [h1] at hge
                obtain ⟨v, hv⟩ := ih (countNone (b.set i (some .O))) (by omega) _ rfl (d + 1) false
                simp only [hv] at hge
                exact hge (negInf_lt_fin v)
              · have hcj := countNone_set_some b j .O (List.mem_range.1 hj) hje
                obtain ⟨v, hv⟩ := ih (countNone (b.set j (some .O))) (by omega) _ rfl (d + 1) false
                exact ⟨v, by rw [h1]; exact hv⟩
          | false =>
              have hcount := countNone_set_some b i .X hi he
              rw [minimax_inProgress_min hc]
              rcases foldl_minStep_cases b
                (fun i => AIPlayer.minimax (b.set i (some .X)) (d + 1) true)
                (List.range b.length) .posInf with h1 | ⟨j, hj, hje, h1⟩
              · exfalso
                have hge := foldl_minStep_le_mem b
                  (fun i => AIPlayer.minimax (b.set i (some .X)) (d + 1) true)
                  (List.range b.length) .posInf i (List.mem_range.2 hi) he
                rw [h1] at hge
                obtain ⟨v, hv⟩ := ih (countNone (b.set i (some .X))) (by omega) _ rfl (d + 1) true
                simp only [hv] at hge
                exact hge (fin_lt_posInf v)
              · have hcj := countNone_set_some b j .X (List.mem_range.1 hj) hje
                obtain ⟨v, hv⟩ := ih (countNone (b.set j (some .X))) (by omega) _ rfl (d + 1) true
                exact ⟨v, by rw [h1]; exact hv⟩

/-! ### Soundness of the bound certificates -/

theorem zip_all_mem {P : Nat × Cert → Bool} :
    ∀ (es : List Nat) (cs : List Cert), es.length = cs.length →
      (es.zip cs).all P = true → ∀ i ∈ es, ∃ c, P (i, c) = true := by
  intro es
  induction es with
  | nil => intro cs _ _ i hi; simp at hi
  | cons e es ih =>
      intro cs hlen hall i hi
      match cs with
      | [] => simp at hlen
      | c :: cs =>
          rw [List.zip_cons_cons] at hall
          simp only [List.all_cons, Bool.and_eq_true] at hall
          rcases List.mem_cons.1 hi with rfl | hi
          · exact ⟨c, hall.1⟩
          · exact ih cs (by simpa using hlen) hall.2 i hi

theorem ubCheck_sound_terminal {s : Int} {cert : Cert} {b : Board} {d : Nat} {m : Bool}
    {r : AIResult} (hr : AIPlayer.checkGameState b = some r)
    (h : ubCheck s 0 cert b d m = true) : jle (AIPlayer.minimax b d m) (.fin s) := by
  rw [ubCheck.eq_1, hr] at h
  rcases r with mk | _
  · cases mk
    · rw [minimax_terminal_X hr]
      exact jle_fin_fin.2 (of_decide_eq_true h)
    · rw [minimax_terminal_O hr]
      exact jle_fin_fin.2 (of_decide_eq_true h)
  · rw [minimax_terminal_draw hr]
    exact jle_fin_fin.2 (of_decide_eq_true h)

theorem lbCheck_sound_terminal {s : Int} {cert : Cert} {b : Board} {d : Nat} {m : Bool}
    {r : AIResult} (hr : AIPlayer.checkGameState b = some r)
    (h : lbCheck s 0 cert b d m = true) : jle (.fin s) (AIPlayer.minimax b d m) := by
  rw [lbCheck.eq_1, hr] at h
  rcases r with mk | _
  · cases mk
    · rw [minimax_terminal_X hr]
      exact jle_fin_fin.2 (of_decide_eq_true h)
    · rw [minimax_terminal_O hr]
      exact jle_fin_fin.2 (of_decide_eq_true h)
  · rw [minimax_terminal_draw hr]
    exact jle_fin_fin.2 (of_decide_eq_true h)

theorem ubCheck_eq_of_some {s : Int} {fuel : Nat} {cert : Cert} {b : Board} {d : Nat}
    {m : Bool} {r : AIResult} (hr : AIPlayer.checkGameState b = some r) :
    ubCheck s fuel cert b d m = ubCheck s 0 cert b d m := by
  cases fuel with
  | zero => rfl
  | succ k =>
      cases cert with
      | play mv next =>
          rw [ubCheck.eq_3, ubCheck.eq_1, hr]
          rcases r with mk | _
          · cases mk <;> rfl
          · rfl
      | branch children =>
          rw [ubCheck.eq_2, ubCheck.eq_1, hr]
          rcases r with mk | _
          · cases mk <;> rfl
          · rfl

theorem lbCheck_eq_of_some {s : Int} {fuel : Nat} {cert : Cert} {b : Board} {d : Nat}
    {m : Bool} {r : AIResult} (hr : AIPlayer.checkGameState b = some r) :
    lbCheck s fuel cert b d m = lbCheck s 0 cert b d m := by
  cases fuel with
  | zero => rfl
  | succ k =>
      cases cert with
      | play mv next =>
          rw [lbCheck.eq_2, lbCheck.eq_1, hr]
          rcases r with mk | _
          · cases mk <;> rfl
          · rfl
      | branch children =>
          rw [lbCheck.eq_3, lbCheck.eq_1, hr]
          rcases r with mk | _
          · cases mk <;> rfl
          · rfl

theorem ubCheck_sound {s : Int} : ∀ (fuel : Nat) (b : Board), countNone b ≤ fuel →
    ∀ (cert : Cert) (d : Nat) (m : Bool), ubCheck s fuel cert b d m = true →
      jle (AIPlayer.minimax b d m) (.fin s) := by
  intro fuel
  induction fuel with
  | zero =>
      intro b hb cert d m h
      obtain ⟨r, hr⟩ := checkGameState_of_full (b := b) (by omega)
      exact ubCheck_sound_terminal hr h
  | succ k ih =>
      intro b hb cert d m h
      cases hc : AIPlayer.checkGameState b with
      | some r =>
          rw [ubCheck_eq_of_some hc] at h
          exact ubCheck_sound_terminal hc h
      | none =>
          cases m with
          | true =>
              cases cert with
              | play mv next =>
                  rw [ubCheck.eq_3, hc] at h
                  simp at h
              | branch children =>
                  rw [ubCheck.eq_2, hc] at h
                  simp only [if_true, Bool.and_eq_true] at h
                  obtain ⟨hlen, hall⟩ := h
                  rw [minimax_inProgress_max hc]
                  refine foldl_maxStep_le b _ _ _ _ (negInf_jle _) ?_
                  intro i hi he
                  have hie : i ∈ emptyIdx b :=
                    mem_emptyIdx.2 ⟨List.mem_range.1 hi, he⟩
                  obtain ⟨cc, hcc⟩ := zip_all_mem (emptyIdx b) children
                    (by simpa using hlen) hall i hie
                  have hcnt := countNone_set_some b i .O (List.mem_range.1 hi) he
                  exact ih (b.set i (some .O)) (by omega) cc (d + 1) false hcc
          | false =>
              cases cert with
              | branch children =>
                  rw [ubCheck.eq_2, hc] at h
                  simp at h
              | play mv next =>
                  rw [ubCheck.eq_3, hc] at h
                  rw [if_neg (show ¬ (false = true) by simp)] at h
                  simp only [Bool.and_eq_true] at h
                  obtain ⟨⟨hmv, hemv⟩, hrest⟩ := h
                  have hmv' : mv < b.length := of_decide_eq_true hmv
                  have hemv' : b.getD mv none = none := by simpa using hemv
                  have hcnt := countNone_set_some b mv .X hmv' hemv'
                  have hchild := ih (b.set mv (some .X)) (by omega) next (d + 1) true hrest
                  rw [minimax_inProgress_min hc]
                  refine jle_trans ?_ hchild
                  exact foldl_minStep_le_mem b _ _ _ mv (List.mem_range.2 hmv') hemv'

theorem lbCheck_sound {s : Int} : ∀ (fuel : Nat) (b : Board), countNone b ≤ fuel →
    ∀ (cert : Cert) (d : Nat) (m : Bool), lbCheck s fuel cert b d m = true →
      jle (.fin s) (AIPlayer.minimax b d m) := by
  intro fuel
  induction fuel with
  | zero =>
      intro b hb cert d m h
      obtain ⟨r, hr⟩ := checkGameState_of_full (b := b) (by omega)
      exact lbCheck_sound_terminal hr h
  | succ k ih =>
      intro b hb cert d m h
      cases hc : AIPlayer.checkGameState b with
      | some r =>
          rw [lbCheck_eq_of_some hc] at h
          exact lbCheck_sound_terminal hc h
      | none =>
          cases m with
          | true =>
              cases cert with
              | branch children =>
                  rw [lbCheck.eq_3, hc] at h
                  simp at h
              | play mv next =>
                  rw [lbCheck.eq_2, hc] at h
                  simp only [if_true, Bool.and_eq_true] at h
                  obtain ⟨⟨hmv, hemv⟩, hrest⟩ := h
                  have hmv' : mv < b.length := of_decide_eq_true hmv
                  have hemv' : b.getD mv none = none := by simpa using hemv
                  have hcnt := countNone_set_some b mv .O hmv' hemv'
                  have hchild := ih (b.set mv (some .O)) (by omega) next (d + 1) false hrest
                  rw [minimax_inProgress_max hc]
                  refine jle_trans hchild ?_
                  exact foldl_maxStep_ge_mem b _ _ _ mv (List.mem_range.2 hmv') hemv'
          | false =>
              cases cert with
              | play mv next =>
                  rw [lbCheck.eq_2, hc] at h
                  simp at h
              | branch children =>
                  rw [lbCheck.eq_3, hc] at h
                  rw [if_neg (show ¬ (false = true) by simp)] at h
                  simp only [Bool.and_eq_true] at h
                  obtain ⟨hlen, hall⟩ := h
                  rw [minimax_inProgress_min hc]
                  refine foldl_minStep_ge b _ _ _ _ (jle_posInf _) ?_
                  intro i hi he
                  have hie : i ∈ emptyIdx b :=
                    mem_emptyIdx.2 ⟨List.mem_range.1 hi, he⟩
                  obtain ⟨cc, hcc⟩ := zip_all_mem (emptyIdx b) children
                    (by simpa using hlen) hall i hie
                  have hcnt := countNone_set_some b i .X (List.mem_range.1 hi) he
                  exact ih (b.set i (some .X)) (by omega) cc (d + 1) true hcc

/-- The minimax value of the empty board, with the opponent X to move, is
an exact draw. -/
theorem minimax_empty9_eq : AIPlayer.minimax empty9 0 false = .fin 0 := by
  have h9 : countNone empty9 ≤ 9 := by decide
  exact jle_antisymm_fin
    (ubCheck_sound 9 empty9 h9 certUB 0 false certUB_check)
    (lbCheck_sound 9 empty9 h9 certLB 0 false certLB_check)

/-! ### Depth only shifts minimax values without changing their sign -/

theorem jsgn_fin_pos {v : Int} (h : 0 < v) : jsgn (.fin v) = 1 := by
  simp only [jsgn]
  rw [if_neg (by omega), if_neg (by omega)]

theorem jsgn_fin_neg {v : Int} (h : v < 0) : jsgn (.fin v) = -1 := by
  simp only [jsgn]
  rw [if_pos h]

theorem jsgn_fin_zero : jsgn (.fin 0) = 0 := by decide

theorem minimax_jsgn_shift : ∀ (n : Nat) (b : Board), countNone b ≤ n →
    ∀ (d d' : Nat) (m : Bool), d + countNone b ≤ 9 → d' + countNone b ≤ 9 →
    jsgn (AIPlayer.minimax b d m) = jsgn (AIPlayer.minimax b d' m) := by
  intro n
  induction n with
  | zero =>
      intro b hb d d' m hd hd'
      obtain ⟨r, hr⟩ := checkGameState_of_full (b := b) (by omega)
      rcases r with mk | _
      · cases mk
        · rw [minimax_terminal_X hr, minimax_terminal_X hr,
            jsgn_fin_neg (by omega), jsgn_fin_neg (by omega)]
        · rw [minimax_terminal_O hr, minimax_terminal_O hr,
            jsgn_fin_pos (by omega), jsgn_fin_pos (by omega)]
      · rw [minimax_terminal_draw hr, minimax_terminal_draw hr]
  | succ k ih =>
      intro b hb d d' m hd hd'
      cases hc : AIPlayer.checkGameState b with
      | some r =>
          rcases r with mk | _
          · cases mk
            · rw [minimax_terminal_X hc, minimax_terminal_X hc,
                jsgn_fin_neg (by omega), jsgn_fin_neg (by omega)]
            · rw [minimax_terminal_O hc, minimax_terminal_O hc,
                jsgn_fin_pos (by omega), jsgn_fin_pos (by omega)]
          · rw [minimax_terminal_draw hc, minimax_terminal_draw hc]
      | none =>
          obtain ⟨i0, hi0, he0⟩ := exists_empty_of_inProgress hc
          have hpos : 0 < countNone b := countNone_pos_of_empty hi0 he0
          cases m with
          | true =>
              rw [minimax_inProgress_max hc, minimax_inProgress_max hc]
              apply foldl_maxStep_jsgn
              · intro i hi he
                have hcnt := countNone_set_some b i .O (List.mem_range.1 hi) he
                exact ih (b.set i (some .O)) (by omega) (d + 1) (d' + 1) false
                  (by omega) (by omega)
              · rfl
          | false =>
              rw [minimax_inProgress_min hc, minimax_inProgress_min hc]
              apply foldl_minStep_jsgn
              · intro i hi he
                have hcnt := countNone_set_some b i .X (List.mem_range.1 hi) he
                exact ih (b.set i (some .X)) (by omega) (d + 1) (d' + 1) true
                  (by omega) (by omega)
              · rfl

/-! ### Characterization of `findBestMove` -/

theorem fbStep_occupied {b : Board} {acc : JNum × Option Nat} {i : Nat}
    (he : ¬ b.getD i none = none) : AIPlayer.fbStep b acc i = acc := by
  unfold AIPlayer.fbStep
  rw [if_neg (by simpa using he)]

theorem fbStep_empty_lt {b : Board} {acc : JNum × Option Nat} {i : Nat}
    (he : b.getD i none = none)
    (hlt : acc.1.lt (AIPlayer.minimax (b.set i (some .O)) 0 false) = true) :
    AIPlayer.fbStep b acc i = (AIPlayer.minimax (b.set i (some .O)) 0 false, some i) := by
  unfold AIPlayer.fbStep
  rw [he]
  simp [hlt]

theorem fbStep_empty_ge {b : Board} {acc : JNum × Option Nat} {i : Nat}
    (he : b.getD i none = none)
    (hlt : ¬ acc.1.lt (AIPlayer.minimax (b.set i (some .O)) 0 false) = true) :
    AIPlayer.fbStep b acc i = acc := by
  unfold AIPlayer.fbStep
  rw [he]
  simp [hlt]

theorem fbFold_invariant (b : Board) :
    ∀ (l past : List Nat) (acc : JNum × Option Nat),
    (∀ p ∈ past, ∀ q ∈ l, p < q) →
    List.Pairwise (· < ·) l →
    (acc.2 = none → acc.1 = .negInf ∧ ∀ i ∈ past, b.getD i none ≠ none) →
    (∀ j, acc.2 = some j → j ∈ past ∧ b.getD j none = none ∧
        acc.1 = AIPlayer.minimax (b.set j (some .O)) 0 false ∧
        (∀ i ∈ past, b.getD i none = none →
          jle (AIPlayer.minimax (b.set i (some .O)) 0 false) acc.1) ∧
        (∀ i ∈ past, i < j → b.getD i none = none →
          JNum.lt (AIPlayer.minimax (b.set i (some .O)) 0 false) acc.1 = true)) →
    ((l.foldl (AIPlayer.fbStep b) acc).2 = none →
        (l.foldl (AIPlayer.fbStep b) acc).1 = .negInf ∧
        ∀ i ∈ past ++ l, b.getD i none ≠ none) ∧
    (∀ j, (l.foldl (AIPlayer.fbStep b) acc).2 = some j → j ∈ past ++ l ∧
        b.getD j none = none ∧
        (l.foldl (AIPlayer.fbStep b) acc).1 = AIPlayer.minimax (b.set j (some .O)) 0 false ∧
        (∀ i ∈ past ++ l, b.getD i none = none →
          jle (AIPlayer.minimax (b.set i (some .O)) 0 false)
            ((l.foldl (AIPlayer.fbStep b) acc).1)) ∧
        (∀ i ∈ past ++ l, i < j → b.getD i none = none →
          JNum.lt (AIPlayer.minimax (b.set i (some .O)) 0 false)
            ((l.foldl (AIPlayer.fbStep b) acc).1) = true)) := by
  intro l
  induction l with
  | nil =>
      intro past acc _ _ hnone hsome
      constructor
      · intro h2
        obtain ⟨h1, h3⟩ := hnone h2
        exact ⟨h1, by simpa using h3⟩
      · intro j h2
        obtain ⟨hj1, hj2, hj3, hj4, hj5⟩ := hsome j h2
        exact ⟨by simpa using hj1, hj2, hj3, by simpa using hj4, by simpa using hj5⟩
  | cons q l ih =>
      intro past acc hsort hpair hnone hsome
      rw [List.foldl_cons]
      have hqlt : ∀ r ∈ l, q < r := by
        intro r hr
        exact (List.pairwise_cons.1 hpair).1 r hr
      have hsort' : ∀ p ∈ past ++ [q], ∀ r ∈ l, p < r := by
        intro p hp r hr
        rcases List.mem_append.1 hp with hp | hp
        · exact hsort p hp r (by simp [hr])
        · simp at hp
          subst hp
          exact hqlt r hr
      have hpair' : List.Pairwise (· < ·) l := (List.pairwise_cons.1 hpair).2
      have hmain := ih (past ++ [q]) (AIPlayer.fbStep b acc q) hsort' hpair' ?_ ?_
      · constructor
        · intro h2
          obtain ⟨h1, h3⟩ := hmain.1 h2
          refine ⟨h1, ?_⟩
          intro i hi
          apply h3
          simp only [List.append_assoc, List.singleton_append] at *
          exact hi
        · intro j h2
          obtain ⟨hj1, hj2, hj3, hj4, hj5⟩ := hmain.2 j h2
          simp only [List.append_assoc, List.singleton_append] at hj1 hj4 hj5
          exact ⟨hj1, hj2, hj3, hj4, hj5⟩
      · -- invariant (none case) for the new accumulator
        intro h2
        by_cases he : b.getD q none = none
        · rcases hacc2 : acc.2 with _ | j
          · obtain ⟨ha1, _⟩ := hnone hacc2
            obtain ⟨v, hv⟩ := minimax_fin (b.set q (some .O)) 0 false
            rw [fbStep_empty_lt he (by rw [ha1, hv]; exact negInf_lt_fin v)] at h2
            simp at h2
          · obtain ⟨_, _, hj3, _, _⟩ := hsome j hacc2
            by_cases hlt : acc.1.lt (AIPlayer.minimax (b.set q (some .O)) 0 false) = true
            · rw [fbStep_empty_lt he hlt] at h2
              simp at h2
            · rw [fbStep_empty_ge he hlt] at h2
              rw [hacc2] at h2
              simp at h2
        · rw [fbStep_occupied he] at h2 ⊢
          obtain ⟨ha1, ha2⟩ := hnone h2
          refine ⟨ha1, ?_⟩
          intro i hi
          rcases List.mem_append.1 hi with hi | hi
          · exact ha2 i hi
          · simp at hi
            subst hi
            exact he
      · -- invariant (some case) for the new accumulator
        intro j h2
        by_cases he : b.getD q none = none
        · rcases hacc2 : acc.2 with _ | j0
          · obtain ⟨ha1, ha2⟩ := hnone hacc2
            obtain ⟨v, hv⟩ := minimax_fin (b.set q (some .O)) 0 false
            have hstep := fbStep_empty_lt he (by rw [ha1, hv]; exact negInf_lt_fin v)
            rw [hstep] at h2
            simp at h2
            subst h2
            rw [hstep]
            refine ⟨by simp, he, rfl, ?_, ?_⟩
            · intro i hi hie
              rcases List.mem_append.1 hi with hi | hi
              · exact absurd hie (ha2 i hi)
              · simp at hi
                subst hi
                exact jle_refl _
            · intro i hi hij hie
              rcases List.mem_append.1 hi with hi | hi
              · exact absurd hie (ha2 i hi)
              · simp at hi
                omega
          · obtain ⟨hj1, hj2, hj3, hj4, hj5⟩ := hsome j0 hacc2
            by_cases hlt : acc.1.lt (AIPlayer.minimax (b.set q (some .O)) 0 false) = true
            · have hstep := fbStep_empty_lt he hlt
              rw [hstep] at h2
              simp at h2
              subst h2
              rw [hstep]
              refine ⟨by simp, he, rfl, ?_, ?_⟩
              · intro i hi hie
                rcases List.mem_append.1 hi with hi | hi
                · exact jle_of_lt (jle_lt_trans (hj4 i hi hie) hlt)
                · simp at hi
                  subst hi
                  exact jle_refl _
              · intro i hi hij hie
                rcases List.mem_append.1 hi with hi | hi
                · exact jle_lt_trans (hj4 i hi hie) hlt
                · simp at hi
                  omega
            · have hstep := fbStep_empty_ge he hlt
              rw [hstep] at h2
              rw [hacc2] at h2
              simp at h2
              subst h2
              rw [hstep]
              refine ⟨by simp [hj1], hj2, hj3, ?_, ?_⟩
              · intro i hi hie
                rcases List.mem_append.1 hi with hi | hi
                · exact hj4 i hi hie
                · simp at hi
                  subst hi
                  exact hlt
              · intro i hi hij hie
                rcases List.mem_append.1 hi with hi | hi
                · exact hj5 i hi hij hie
                · simp at hi
                  subst hi
                  have hjq := hsort j0 hj1 _ (List.mem_cons_self _ _)
                  exact absurd hij (by omega)
        · rw [fbStep_occupied he] at h2 ⊢
          obtain ⟨hj1, hj2, hj3, hj4, hj5⟩ := hsome j h2
          refine ⟨by simp [hj1], hj2, hj3, ?_, ?_⟩
          · intro i hi hie
            rcases List.mem_append.1 hi with hi | hi
            · exact hj4 i hi hie
            · simp at hi
              subst hi
              exact absurd hie he
          · intro i hi hij hie
            rcases List.mem_append.1 hi with hi | hi
            · exact hj5 i hi hij hie
            · simp at hi
              subst hi
              exact absurd hie he

theorem findBestMove_spec (b : Board) :
    (AIPlayer.findBestMove b = none → ∀ i, i < b.length → ¬ b.getD i none = none) ∧
    (∀ j, AIPlayer.findBestMove b = some j →
      j < b.length ∧ b.getD j none = none ∧
      (∀ i, i < b.length → b.getD i none = none →
        jle (AIPlayer.minimax (b.set i (some .O)) 0 false)
            (AIPlayer.minimax (b.set j (some .O)) 0 false)) ∧
      (∀ i, i < j → b.getD i none = none →
        JNum.lt (AIPlayer.minimax (b.set i (some .O)) 0 false)
          (AIPlayer.minimax (b.set j (some .O)) 0 false) = true)) := by
  have H := fbFold_invariant b (List.range b.length) [] (.negInf, none)
    (by intro p hp; simp at hp) (List.pairwise_lt_range _)
    (fun _ => ⟨rfl, by intro i hi; simp at hi⟩)
    (by intro j h; simp at h)
  unfold AIPlayer.findBestMove
  constructor
  · intro h2 i hi
    exact (H.1 h2).2 i (by simpa using List.mem_range.2 hi)
  · intro j h2
    obtain ⟨hj1, hj2, hj3, hj4, hj5⟩ := H.2 j h2
    have hjlen : j < b.length := by simpa using hj1
    refine ⟨hjlen, hj2, ?_, ?_⟩
    · intro i hi hie
      have hh := hj4 i (by simpa using List.mem_range.2 hi) hie
      rw [hj3] at hh
      exact hh
    · intro i hij hie
      have hh := hj5 i (by simp [List.mem_range]; omega) hij hie
      rw [hj3] at hh
      exact hh

theorem findBestMove_isSome {b : Board} {i : Nat} (hi : i < b.length)
    (he : b.getD i none = none) : ∃ j, AIPlayer.findBestMove b = some j := by
  cases hf : AIPlayer.findBestMove b with
  | some j => exact ⟨j, rfl⟩
  | none => exact absurd he ((findBestMove_spec b).1 hf i hi)

/-! ### The AI never reaches a lost position from the empty board -/

theorem trace_length : ∀ {b : Board} {t : Bool}, AITrace b t → b.length = 9 := by
  intro b t h
  induction h with
  | init => simp [empty9]
  | human b i _ _ _ _ ih => simpa using ih
  | ai b j _ _ _ ih => simpa using ih

theorem trace_value_nonneg : ∀ {b : Board} {t : Bool}, AITrace b t →
    jsgn (AIPlayer.minimax b 0 (!t)) ≠ -1 := by
  intro b t h
  induction h with
  | init =>
      show jsgn (AIPlayer.minimax empty9 0 false) ≠ -1
      rw [minimax_empty9_eq, jsgn_fin_zero]
      omega
  | human b i tr hc hi he ih =>
      show jsgn (AIPlayer.minimax (b.set i (some .X)) 0 true) ≠ -1
      have hlen : b.length = 9 := trace_length tr
      have hcle : countNone b ≤ 9 := by
        have := countNone_le_length b
        omega
      have hcnt := countNone_set_some b i .X hi he
      have hprev : jsgn (AIPlayer.minimax b 0 false) ≠ -1 := ih
      rw [minimax_inProgress_min hc] at hprev
      have hprev2 : jsgn ((List.range b.length).foldl
          (minStep b (fun k => AIPlayer.minimax (b.set k (some .X)) 1 true)) .posInf) ≠ -1 := by
        simpa using hprev
      have hmem := foldl_minStep_le_mem b
        (fun k => AIPlayer.minimax (b.set k (some .X)) 1 true)
        (List.range b.length) .posInf i (List.mem_range.2 hi) he
      have hmono : jsgn ((List.range b.length).foldl
            (minStep b (fun k => AIPlayer.minimax (b.set k (some .X)) 1 true)) .posInf) ≤
          jsgn (AIPlayer.minimax (b.set i (some .X)) 1 true) :=
        jsgn_mono hmem
      have hb1 := jsgn_bounds ((List.range b.length).foldl
        (minStep b (fun k => AIPlayer.minimax (b.set k (some .X)) 1 true)) .posInf)
      have hshift := minimax_jsgn_shift (countNone (b.set i (some .X)))
        (b.set i (some .X)) (le_refl _) 1 0 true (by omega) (by omega)
      omega
  | ai b j tr hc hfb ih =>
      show jsgn (AIPlayer.minimax (b.set j (some .O)) 0 false) ≠ -1
      have hlen : b.length = 9 := trace_length tr
      have hcle : countNone b ≤ 9 := by
        have := countNone_le_length b
        omega
      have hprev : jsgn (AIPlayer.minimax b 0 true) ≠ -1 := ih
      rw [minimax_inProgress_max hc] at hprev
      rcases foldl_maxStep_cases b
        (fun k => AIPlayer.minimax (b.set k (some .O)) 1 false)
        (List.range b.length) .negInf with h1 | ⟨i0, hi0, he0, h1⟩
      · rw [h1] at hprev
        exact absurd rfl hprev
      · rw [h1] at hprev
        have hprev2 : jsgn (AIPlayer.minimax (b.set i0 (some .O)) 1 false) ≠ -1 := by
          simpa using hprev
        have hi0' : i0 < b.length := List.mem_range.1 hi0
        have hcnt0 := countNone_set_some b i0 .O hi0' he0
        have hshift := minimax_jsgn_shift (countNone (b.set i0 (some .O)))
          (b.set i0 (some .O)) (le_refl _) 1 0 false (by omega) (by omega)
        have hspec := ((findBestMove_spec b).2 j hfb).2.2.1 i0 hi0' he0
        have hmono := jsgn_mono hspec
        have hb1 := jsgn_bounds (AIPlayer.minimax (b.set i0 (some .O)) 0 false)
        have hb2 := jsgn_bounds (AIPlayer.minimax (b.set j (some .O)) 0 false)
        omega

theorem trace_no_X_win : ∀ {b : Board} {t : Bool}, AITrace b t →
    AIPlayer.checkGameState b ≠ some (.mark .X) := by
  intro b t h hX
  have hv := trace_value_nonneg h
  rw [minimax_terminal_X hX] at hv
  exact hv (jsgn_fin_neg (by omega))

/-! ### The mutate-and-undo search restores the board -/

theorem foldl_preserve {α β : Type _} (P : β → Prop) (step : β → α → β)
    (hstep : ∀ acc a, P acc → P (step acc a)) :
    ∀ (l : List α) (acc : β), P acc → P (l.foldl step acc) := by
  intro l
  induction l with
  | nil => intro acc h; exact h
  | cons a l ih =>
      intro acc h
      rw [List.foldl_cons]
      exact ih _ (hstep acc a h)

theorem minimaxM_board : ∀ (fuel : Nat) (b : Board) (d : Nat) (m : Bool),
    (AIPlayer.minimaxM fuel b d m).2 = b := by
  intro fuel
  induction fuel with
  | zero =>
      intro b d m
      rw [AIPlayer.minimaxM.eq_1]
      cases hc : AIPlayer.checkGameState b with
      | some r =>
          rcases r with mk | _
          · cases mk <;> rfl
          · rfl
      | none => rfl
  | succ k ih =>
      intro b d m
      rw [AIPlayer.minimaxM.eq_2]
      cases hc : AIPlayer.checkGameState b with
      | some r =>
          rcases r with mk | _
          · cases mk <;> rfl
          · rfl
      | none =>
          cases m with
          | true =>
              simp only [if_true]
              apply foldl_preserve (fun acc : JNum × Board => acc.2 = b)
              · intro acc i hacc
                by_cases he : b.getD i none = none
                · rw [hacc, he]
                  rw [if_pos (show ((none : Cell) == none) = true from rfl)]
                  rw [ih]
                  rw [List.set_set]
                  exact set_none_id b i he
                · rw [hacc]
                  rw [if_neg (by simpa using he)]
                  exact hacc
              · rfl
          | false =>
              simp only [Bool.false_eq_true, if_false]
              apply foldl_preserve (fun acc : JNum × Board => acc.2 = b)
              · intro acc i hacc
                by_cases he : b.getD i none = none
                · rw [hacc, he]
                  rw [if_pos (show ((none : Cell) == none) = true from rfl)]
                  rw [ih]
                  rw [List.set_set]
                  exact set_none_id b i he
                · rw [hacc]
                  rw [if_neg (by simpa using he)]
                  exact hacc
              · rfl

theorem findBestMoveM_board : ∀ (b : Board), (AIPlayer.findBestMoveM b).2 = b := by
  intro b
  unfold AIPlayer.findBestMoveM
  apply foldl_preserve (fun acc : JNum × Option Nat × Board => acc.2.2 = b)
  · intro acc i hacc
    by_cases he : b.getD i none = none
    · rw [hacc, he]
      rw [if_pos (show ((none : Cell) == none) = true from rfl)]
      have hrest : ((AIPlayer.minimaxM (countNone (b.set i (some .O)))
          (b.set i (some .O)) 0 false).2.set i none) = b := by
        rw [minimaxM_board, List.set_set]
        exact set_none_id b i he
      by_cases hlt : acc.1.lt (AIPlayer.minimaxM (countNone (b.set i (some .O)))
          (b.set i (some .O)) 0 false).1 = true
      · simp only [hlt, if_true]
        exact hrest
      · simp only [hlt, if_false]
        exact hrest
    · rw [hacc]
      rw [if_neg (by simpa using he)]
      exact hacc
  · rfl

/-! ### Characterization of the rules engine -/

theorem comboWin_some_iff {b : Board} {t : Triple} {r : GameResult} :
    GameLogic.comboWin b t = some r ↔
      ∃ m, lineWins b m t ∧ r = ⟨.mark m, [t.1, t.2.1, t.2.2]⟩ := by
  unfold GameLogic.comboWin
  split
  · rename_i m0 heq
    by_cases hcond : ((b.getD t.2.1 none == some m0) && (b.getD t.2.2 none == some m0)) = true
    · rw [if_pos hcond]
      simp only [Bool.and_eq_true] at hcond
      obtain ⟨h1, h2⟩ := hcond
      constructor
      · intro h
        simp only [Option.some_inj] at h
        exact ⟨m0, ⟨heq, by simpa using h1, by simpa using h2⟩, h.symm⟩
      · rintro ⟨m, ⟨hm1, _, _⟩, rfl⟩
        rw [heq] at hm1
        simp only [Option.some_inj] at hm1
        subst hm1
        rfl
    · rw [if_neg hcond]
      constructor
      · intro h
        simp at h
      · rintro ⟨m, ⟨hm1, hm2, hm3⟩, rfl⟩
        rw [heq] at hm1
        simp only [Option.some_inj] at hm1
        subst hm1
        refine absurd ?_ hcond
        simp only [Bool.and_eq_true, beq_iff_eq]
        exact ⟨hm2, hm3⟩
  · rename_i heq
    constructor
    · intro h
      simp at h
    · rintro ⟨m, ⟨hm1, _, _⟩, _⟩
      rw [heq] at hm1
      simp at hm1

theorem comboWin_none_iff {b : Board} {t : Triple} :
    GameLogic.comboWin b t = none ↔ ∀ m, ¬ lineWins b m t := by
  unfold GameLogic.comboWin
  split
  · rename_i m0 heq
    by_cases hcond : ((b.getD t.2.1 none == some m0) && (b.getD t.2.2 none == some m0)) = true
    · rw [if_pos hcond]
      simp only [Bool.and_eq_true] at hcond
      obtain ⟨h1, h2⟩ := hcond
      constructor
      · intro h
        simp at h
      · intro hall
        exact absurd ⟨heq, by simpa using h1, by simpa using h2⟩ (hall m0)
    · rw [if_neg hcond]
      constructor
      · intro _ m hm
        obtain ⟨hm1, hm2, hm3⟩ := hm
        rw [heq] at hm1
        simp only [Option.some_inj] at hm1
        subst hm1
        refine absurd ?_ hcond
        simp only [Bool.and_eq_true, beq_iff_eq]
        exact ⟨hm2, hm3⟩
      · intro _
        rfl
  · rename_i heq
    constructor
    · intro _ m hm
      obtain ⟨hm1, _, _⟩ := hm
      rw [heq] at hm1
      simp at hm1
    · intro _
      rfl

theorem checkWinner_some_iff {b : Board} {r : GameResult} :
    GameLogic.checkWinner b = some r ↔
      ∃ l₁ t l₂, GameLogic.winningCombinations = l₁ ++ t :: l₂ ∧
        (∃ m, lineWins b m t ∧ r = ⟨.mark m, [t.1, t.2.1, t.2.2]⟩) ∧
        ∀ u ∈ l₁, ∀ m', ¬ lineWins b m' u := by
  unfold GameLogic.checkWinner
  rw [findSome?_eq_some_decomp]
  constructor
  · rintro ⟨l₁, t, l₂, hsplit, hsome, hnone⟩
    exact ⟨l₁, t, l₂, hsplit, comboWin_some_iff.1 hsome,
      fun u hu m' => (comboWin_none_iff.1 (hnone u hu)) m'⟩
  · rintro ⟨l₁, t, l₂, hsplit, hm, hnone⟩
    exact ⟨l₁, t, l₂, hsplit, comboWin_some_iff.2 hm,
      fun u hu => comboWin_none_iff.2 (fun m' => hnone u hu m')⟩

theorem checkWinner_none_iff {b : Board} :
    GameLogic.checkWinner b = none ↔
      ∀ u ∈ GameLogic.winningCombinations, ∀ m, ¬ lineWins b m u := by
  unfold GameLogic.checkWinner
  rw [List.findSome?_eq_none_iff]
  constructor
  · intro h u hu m
    exact comboWin_none_iff.1 (h u hu) m
  · intro h u hu
    exact comboWin_none_iff.2 (fun m => h u hu m)

theorem checkDraw_iff {b : Board} :
    GameLogic.checkDraw b = true ↔ ∀ c ∈ b, c ≠ none := by
  unfold GameLogic.checkDraw
  rw [List.all_eq_true]
  constructor
  · intro h c hc
    simpa using h c hc
  · intro h c hc
    simpa using h c hc

/-! ### The AI terminal check against the rules engine -/

theorem comboWin_eq_map (b : Board) (t : Triple) :
    GameLogic.comboWin b t = (AIPlayer.comboCheck b t).map
      (fun m => (⟨.mark m, [t.1, t.2.1, t.2.2]⟩ : GameResult)) := by
  unfold GameLogic.comboWin AIPlayer.comboCheck
  split
  · rename_i m0 heq
    by_cases hcond : ((b.getD t.2.1 none == some m0) && (b.getD t.2.2 none == some m0)) = true
    · rw [if_pos hcond, if_pos hcond]
      rfl
    · rw [if_neg hcond, if_neg hcond]
      rfl
  · rfl

theorem findSome?_map_none {α β γ : Type _} (G : α → Option β) (g : α → β → γ) :
    ∀ l : List α, (l.findSome? (fun a => (G a).map (g a)) = none) ↔ (l.findSome? G = none) := by
  intro l
  induction l with
  | nil => simp
  | cons hd tl ih =>
      rw [List.findSome?_cons, List.findSome?_cons]
      cases hG : G hd with
      | none => simpa [hG] using ih
      | some v => simp [hG]

theorem findSome?_map_some₁ {α β γ : Type _} (G : α → Option β) (g : α → β → γ) :
    ∀ (l : List α) (c : γ), l.findSome? (fun a => (G a).map (g a)) = some c →
      ∃ a m, G a = some m ∧ c = g a m ∧ l.findSome? G = some m := by
  intro l
  induction l with
  | nil => intro c h; simp at h
  | cons hd tl ih =>
      intro c h
      rw [List.findSome?_cons] at h
      cases hG : G hd with
      | some v =>
          rw [hG] at h
          simp only [Option.map_some'] at h
          simp only [Option.some_inj] at h
          exact ⟨hd, v, hG, h.symm, by rw [List.findSome?_cons, hG]⟩
      | none =>
          rw [hG] at h
          simp only [Option.map_none'] at h
          obtain ⟨a, m, h1, h2, h3⟩ := ih c h
          exact ⟨a, m, h1, h2, by rw [List.findSome?_cons, hG]; exact h3⟩

theorem findSome?_map_some₂ {α β γ : Type _} (G : α → Option β) (g : α → β → γ) :
    ∀ (l : List α) (m : β), l.findSome? G = some m →
      ∃ a, G a = some m ∧ l.findSome? (fun a => (G a).map (g a)) = some (g a m) := by
  intro l
  induction l with
  | nil => intro m h; simp at h
  | cons hd tl ih =>
      intro m h
      rw [List.findSome?_cons] at h
      cases hG : G hd with
      | some v =>
          rw [hG] at h
          simp only [Option.some_inj] at h
          subst h
          exact ⟨hd, hG, by rw [List.findSome?_cons, hG]; rfl⟩
      | none =>
          rw [hG] at h
          obtain ⟨a, h1, h2⟩ := ih m h
          exact ⟨a, h1, by rw [List.findSome?_cons, hG]; exact h2⟩

theorem checkGameState_mark_iff {b : Board} {m : Mark} :
    AIPlayer.checkGameState b = some (.mark m) ↔
      AIPlayer.winningCombinations.findSome? (AIPlayer.comboCheck b) = some m := by
  unfold AIPlayer.checkGameState
  split
  · rename_i m0 heq
    rw [heq]
    simp
  · rename_i heq
    rw [heq]
    split_ifs <;> simp

theorem checkGameState_draw_iff {b : Board} :
    AIPlayer.checkGameState b = some .draw ↔
      AIPlayer.winningCombinations.findSome? (AIPlayer.comboCheck b) = none ∧
        (b.all (fun cell => cell != none)) = true := by
  unfold AIPlayer.checkGameState
  split
  · rename_i m0 heq
    rw [heq]
    simp
  · rename_i heq
    rw [heq]
    split_ifs with hall <;> simp [hall]

theorem checkGameState_none_iff {b : Board} :
    AIPlayer.checkGameState b = none ↔
      AIPlayer.winningCombinations.findSome? (AIPlayer.comboCheck b) = none ∧
        (b.all (fun cell => cell != none)) = false := by
  unfold AIPlayer.checkGameState
  split
  · rename_i m0 heq
    rw [heq]
    simp
  · rename_i heq
    rw [heq]
    split_ifs with hall <;> simp [hall]

theorem getGameResult_win_iff {b : Board} {m : Mark} {comb : List Nat} :
    GameLogic.getGameResult b = some ⟨.mark m, comb⟩ ↔
      GameLogic.checkWinner b = some ⟨.mark m, comb⟩ := by
  unfold GameLogic.getGameResult
  split
  · rename_i r heq
    rw [heq]
  · rename_i heq
    rw [heq]
    split_ifs <;> simp

theorem getGameResult_draw_iff {b : Board} :
    GameLogic.getGameResult b = some ⟨.draw, []⟩ ↔
      GameLogic.checkWinner b = none ∧ GameLogic.checkDraw b = true := by
  unfold GameLogic.getGameResult
  split
  · rename_i r heq
    rw [heq]
    obtain ⟨l₁, t, l₂, _, ⟨m, _, hr⟩, _⟩ := checkWinner_some_iff.1 heq
    subst hr
    simp
  · rename_i heq
    rw [heq]
    split_ifs with hd <;> simp [hd]

theorem getGameResult_none_iff {b : Board} :
    GameLogic.getGameResult b = none ↔
      GameLogic.checkWinner b = none ∧ GameLogic.checkDraw b = false := by
  unfold GameLogic.getGameResult
  split
  · rename_i r heq
    rw [heq]
    simp
  · rename_i heq
    rw [heq]
    split_ifs with hd <;> simp [hd]

/-! ### Controller helper lemmas -/

theorem jsArraySet_lt {b : Board} {i : Nat} (h : i < b.length) (v : Cell) :
    jsArraySet b i v = b.set i v := by
  unfold jsArraySet
  rw [if_pos h]

theorem jsArraySet_getD_self (b : Board) (i : Nat) (v : Cell) :
    (jsArraySet b i v).getD i none = v := by
  unfold jsArraySet
  split
  · rename_i h
    exact getD_set_self h v
  · rename_i h
    have hlen : (b ++ List.replicate (i - b.length) none).length = i := by
      simp
      omega
    have hge : (b ++ List.replicate (i - b.length) none).length ≤ i := by
      simp
      omega
    rw [List.getD_eq_getElem?_getD, List.getElem?_append_right hge, hlen]
    simp

theorem jsArraySet_getD_ne (b : Board) (i : Nat) (v : Cell) (j : Nat) (h : j ≠ i) :
    (jsArraySet b i v).getD j none = b.getD j none := by
  unfold jsArraySet
  split
  · rename_i hi
    exact getD_set_ne (fun he => h he.symm) v
  · rename_i hi
    by_cases hj : j < b.length
    · rw [List.getD_eq_getElem?_getD, List.getD_eq_getElem?_getD]
      rw [List.getElem?_append_left (by simp; omega), List.getElem?_append_left hj]
    · by_cases hji : j < i
      · rw [List.getD_eq_getElem?_getD, List.getD_eq_getElem?_getD]
        rw [List.getElem?_append_left (by simp; omega)]
        rw [List.getElem?_append_right (by omega)]
        rw [List.getElem?_replicate]
        rw [if_pos (by omega)]
        rw [List.getElem?_eq_none (by omega)]
        rfl
      · rw [List.getD_eq_getElem?_getD, List.getD_eq_getElem?_getD]
        rw [List.getElem?_eq_none (by simp; omega), List.getElem?_eq_none (by omega)]

theorem empty9_getD {k : Nat} : empty9.getD k none = none := by
  unfold empty9
  rw [List.getD_eq_getElem?_getD, List.getElem?_replicate]
  split <;> rfl

theorem getGameResult_one_mark {j : Nat} (hj : j < 9) (m : Mark) :
    GameLogic.getGameResult (empty9.set j (some m)) = none := by
  rw [getGameResult_none_iff]
  constructor
  · rw [checkWinner_none_iff]
    intro u hu mm hl
    obtain ⟨h1, h2, _⟩ := hl
    have hget : ∀ k, (empty9.set j (some m)).getD k none = some mm → k = j := by
      intro k hk
      by_cases hkj : k = j
      · exact hkj
      · rw [getD_set_ne (fun he => hkj he.symm), empty9_getD] at hk
        simp at hk
    have e1 := hget u.1 h1
    have e2 := hget u.2.1 h2
    have hne : ∀ w ∈ GameLogic.winningCombinations, w.1 ≠ w.2.1 := by decide
    exact absurd (e1.trans e2.symm) (hne u hu)
  · unfold GameLogic.checkDraw
    rw [List.all_eq_false]
    obtain ⟨k, hk9, hkj⟩ : ∃ k, k < 9 ∧ k ≠ j := by
      by_cases h0 : j = 0
      · exact ⟨1, by omega, by omega⟩
      · exact ⟨0, by omega, fun he => h0 he.symm⟩
    have hgd : (empty9.set j (some m)).getD k none = none := by
      rw [getD_set_ne (fun he => hkj he.symm), empty9_getD]
    have hlen : k < (empty9.set j (some m)).length := by
      simp [empty9]
      omega
    have helem : (empty9.set j (some m)).get ⟨k, hlen⟩ = none := by
      have := hgd
      rw [List.getD_eq_getElem?_getD, List.getElem?_eq_getElem hlen] at this
      simpa using this
    refine ⟨none, ?_, by simp⟩
    rw [← helem]
    exact List.get_mem _ _ _

theorem updateScore_currentPlayer (s : GameState) (w : ResultVal) :
    (s.updateScore w).currentPlayer = s.currentPlayer := by
  cases w with
  | draw => rfl
  | mark m => cases m <;> rfl

theorem updateScore_board (s : GameState) (w : ResultVal) :
    (s.updateScore w).board = s.board := by
  cases w with
  | draw => rfl
  | mark m => cases m <;> rfl

theorem makeMove_fields (s : GameState) (i : Nat) :
    (s.makeMove i).2.currentPlayer = s.currentPlayer ∧
    (s.makeMove i).2.gameActive = s.gameActive ∧
    (s.makeMove i).2.scores = s.scores := by
  unfold GameState.makeMove
  split
  · exact ⟨rfl, rfl, rfl⟩
  · exact ⟨rfl, rfl, rfl⟩

theorem makeMove_success_iff (s : GameState) (i : Nat) :
    (s.makeMove i).1 = true ↔ (s.board.getD i none = none ∧ s.gameActive = true) := by
  unfold GameState.makeMove
  split
  · rename_i h
    constructor
    · intro hh
      simp at hh
    · intro ⟨h1, h2⟩
      rcases h with h | h
      · exact absurd h1 h
      · rw [h2] at h
        simp at h
  · rename_i h
    push_neg at h
    constructor
    · intro _
      exact ⟨h.1, by simpa using h.2⟩
    · intro _
      rfl

theorem makeMove_success_board (s : GameState) (i : Nat) :
    (s.makeMove i).1 = true →
    (s.makeMove i).2.board = jsArraySet s.board i (some s.currentPlayer) := by
  unfold GameState.makeMove
  split
  · intro h
    simp at h
  · intro _
    rfl

theorem makeMove_fail_state (s : GameState) (i : Nat) :
    (s.makeMove i).1 = false → s.makeMove i = (false, s) := by
  unfold GameState.makeMove
  split
  · intro _
    rfl
  · intro h
    simp at h

theorem switchPlayer_board (s : GameState) : s.switchPlayer.board = s.board := rfl

theorem switchPlayer_currentPlayer (s : GameState) :
    s.switchPlayer.currentPlayer = (if s.currentPlayer = .X then .O else .X) := rfl

theorem handleGameEnd_currentPlayer (g : Game) (r : GameResult) :
    (TicTacToeGame.handleGameEnd g r).state.currentPlayer = g.state.currentPlayer := by
  unfold TicTacToeGame.handleGameEnd
  rw [updateScore_currentPlayer]

theorem handleCellClick_ai_guard {g : Game} {i : Nat}
    (hai : g.config.isAITurn g.state.currentPlayer = true) :
    TicTacToeGame.handleCellClick g i = g := by
  unfold TicTacToeGame.handleCellClick
  rw [if_pos hai]

theorem handleCellClick_fail {g : Game} {i : Nat}
    (hai : g.config.isAITurn g.state.currentPlayer = false)
    (hf : (g.state.makeMove i).1 = false) :
    TicTacToeGame.handleCellClick g i = g := by
  unfold TicTacToeGame.handleCellClick
  rw [if_neg (by simp [hai])]
  rw [makeMove_fail_state g.state i hf]

theorem handleCellClick_succ {g : Game} {i : Nat} {s₁ : GameState}
    (hai : g.config.isAITurn g.state.currentPlayer = false)
    (hmm : g.state.makeMove i = (true, s₁)) :
    TicTacToeGame.handleCellClick g i =
      (match GameLogic.getGameResult s₁.board with
       | some result => TicTacToeGame.handleGameEnd { g with state := s₁ } result
       | none => { g with state := s₁.switchPlayer }) := by
  unfold TicTacToeGame.handleCellClick
  rw [if_neg (by simp [hai])]
  rw [hmm]

theorem handleCellClick_end {g : Game} {i : Nat} {s₁ : GameState} {r : GameResult}
    (hai : g.config.isAITurn g.state.currentPlayer = false)
    (hmm : g.state.makeMove i = (true, s₁))
    (hres : GameLogic.getGameResult s₁.board = some r) :
    TicTacToeGame.handleCellClick g i = TicTacToeGame.handleGameEnd { g with state := s₁ } r := by
  rw [handleCellClick_succ hai hmm, hres]

theorem handleCellClick_ongoing {g : Game} {i : Nat} {s₁ : GameState}
    (hai : g.config.isAITurn g.state.currentPlayer = false)
    (hmm : g.state.makeMove i = (true, s₁))
    (hres : GameLogic.getGameResult s₁.board = none) :
    TicTacToeGame.handleCellClick g i = { g with state := s₁.switchPlayer } := by
  rw [handleCellClick_succ hai hmm, hres]

theorem aiMoveCallback_none {g : Game}
    (hfb : AIPlayer.findBestMove g.state.board = none) :
    TicTacToeGame.aiMoveCallback g = g := by
  unfold TicTacToeGame.aiMoveCallback
  rw [hfb]

theorem aiMoveCallback_fail {g : Game} {j : Nat}
    (hfb : AIPlayer.findBestMove g.state.board = some j)
    (hf : (g.state.makeMove j).1 = false) :
    TicTacToeGame.aiMoveCallback g = g := by
  unfold TicTacToeGame.aiMoveCallback
  rw [hfb]
  show (match g.state.makeMove j with
    | (false, _) => g
    | (true, s₁) =>
      match GameLogic.getGameResult s₁.board with
      | some result => TicTacToeGame.handleGameEnd { g with state := s₁ } result
      | none => { g with state := s₁.switchPlayer }) = g
  rw [makeMove_fail_state g.state j hf]

theorem aiMoveCallback_succ {g : Game} {j : Nat} {s₁ : GameState}
    (hfb : AIPlayer.findBestMove g.state.board = some j)
    (hmm : g.state.makeMove j = (true, s₁)) :
    TicTacToeGame.aiMoveCallback g =
      (match GameLogic.getGameResult s₁.board with
       | some result => TicTacToeGame.handleGameEnd { g with state := s₁ } result
       | none => { g with state := s₁.switchPlayer }) := by
  unfold TicTacToeGame.aiMoveCallback
  rw [hfb]
  show (match g.state.makeMove j with
    | (false, _) => g
    | (true, s₁) =>
      match GameLogic.getGameResult s₁.board with
      | some result => TicTacToeGame.handleGameEnd { g with state := s₁ } result
      | none => { g with state := s₁.switchPlayer }) = _
  rw [hmm]

theorem aiMoveCallback_changes {g : Game} (hb : g.state.board = empty9)
    (ha : g.state.gameActive = true) :
    (TicTacToeGame.aiMoveCallback g).state.board ≠ g.state.board := by
  obtain ⟨j, hj⟩ := findBestMove_isSome (b := empty9) (i := 0) (by decide) (by decide)
  obtain ⟨hj9, hje, _, _⟩ := (findBestMove_spec empty9).2 j hj
  have hj9' : j < 9 := by simpa [empty9] using hj9
  have hfb : AIPlayer.findBestMove g.state.board = some j := by
    rw [hb]
    exact hj
  have hsucc : (g.state.makeMove j).1 = true := by
    rw [makeMove_success_iff]
    exact ⟨by rw [hb]; exact hje, ha⟩
  cases hmm : g.state.makeMove j with
  | mk ok s₁ =>
      have hok : ok = true := by rw [hmm] at hsucc; exact hsucc
      subst hok
      have hbd := makeMove_success_board g.state j (by rw [hmm])
      rw [hmm] at hbd
      have hs₁b : s₁.board = empty9.set j (some g.state.currentPlayer) := by
        rw [show ((true, s₁) : Bool × GameState).2.board = s₁.board from rfl] at hbd
        rw [hb] at hbd
        rw [jsArraySet_lt (by simpa [empty9] using hj9') _] at hbd
        exact hbd
      have hres : GameLogic.getGameResult s₁.board = none := by
        rw [hs₁b]
        exact getGameResult_one_mark hj9' _
      rw [aiMoveCallback_succ hfb hmm, hres]
      intro hcontra
      have hcb : s₁.board = g.state.board := hcontra
      rw [hs₁b, hb] at hcb
      have h1 : (empty9.set j (some g.state.currentPlayer)).getD j none =
          some g.state.currentPlayer := getD_set_self (by simpa [empty9] using hj9') _
      rw [hcb, empty9_getD] at h1
      simp at h1

theorem checkDraw_false_iff {b : Board} :
    GameLogic.checkDraw b = false ↔ ∃ c ∈ b, c = none := by
  unfold GameLogic.checkDraw
  rw [List.all_eq_false]
  constructor
  · rintro ⟨x, hx, hpx⟩
    exact ⟨x, hx, by simpa using hpx⟩
  · rintro ⟨c, hc, rfl⟩
    exact ⟨none, hc, by simp⟩

/-! ### The claims -/

/-- C1: Minimax is optimal from the empty board: the minimax value of the
empty board with the opponent to move is an exact draw (score 0), and along
every play where X moves arbitrarily and the AI answers with
`findBestMove`, no reachable board is a win for X — the AI never loses. -/
theorem C1_minimax_optimal_from_empty :
    AIPlayer.minimax empty9 0 false = .fin 0 ∧
    ∀ (b : Board) (t : Bool), AITrace b t →
      AIPlayer.checkGameState b ≠ some (.mark .X) :=
  ⟨minimax_empty9_eq, fun _ _ h => trace_no_X_win h⟩

/-- Witness for C1 at the empty board. -/
theorem C1_minimax_optimal_from_empty_witness :
    AITrace empty9 true ∧ AIPlayer.checkGameState empty9 ≠ some (.mark .X) :=
  ⟨AITrace.init, C1_minimax_optimal_from_empty.2 empty9 true AITrace.init⟩

/-- C2: `getGameResult` checks the 8 winning triples in canonical order and
returns the first winning one; with no winning triple it returns the draw
result on a full board and `null` (in progress) otherwise. -/
theorem C2_getGameResult_canonical : ∀ b : Board, b.length = 9 →
    (∀ (m : Mark) (t : Triple),
      GameLogic.getGameResult b = some ⟨.mark m, [t.1, t.2.1, t.2.2]⟩ ↔
      ∃ l₁ l₂, GameLogic.winningCombinations = l₁ ++ t :: l₂ ∧ lineWins b m t ∧
        ∀ u ∈ l₁, ∀ mm, ¬ lineWins b mm u) ∧
    (GameLogic.getGameResult b = some ⟨.draw, []⟩ ↔
      ((∀ u ∈ GameLogic.winningCombinations, ∀ mm, ¬ lineWins b mm u) ∧
        ∀ c ∈ b, c ≠ none)) ∧
    (GameLogic.getGameResult b = none ↔
      ((∀ u ∈ GameLogic.winningCombinations, ∀ mm, ¬ lineWins b mm u) ∧
        ∃ c ∈ b, c = none)) := by
  intro b _
  refine ⟨?_, ?_, ?_⟩
  · intro m t
    constructor
    · intro hg
      rw [getGameResult_win_iff] at hg
      obtain ⟨l₁, u, l₂, hsplit, ⟨mm, hlw, hshape⟩, hnone⟩ := checkWinner_some_iff.1 hg
      have hwin := congrArg GameResult.winner hshape
      have hcomb := congrArg GameResult.combination hshape
      simp only at hwin hcomb
      have hm : m = mm := by
        cases hwin
        rfl
      obtain ⟨u1, u2, u3⟩ := u
      obtain ⟨t1, t2, t3⟩ := t
      simp only [List.cons.injEq, and_true] at hcomb
      obtain ⟨e1, e2, e3⟩ := hcomb
      subst e1
      subst e2
      subst e3
      subst hm
      exact ⟨l₁, l₂, hsplit, hlw, hnone⟩
    · rintro ⟨l₁, l₂, hsplit, hlw, hnone⟩
      rw [getGameResult_win_iff]
      exact checkWinner_some_iff.2 ⟨l₁, t, l₂, hsplit, ⟨m, hlw, rfl⟩, hnone⟩
  · rw [getGameResult_draw_iff, checkWinner_none_iff, checkDraw_iff]
  · rw [getGameResult_none_iff, checkWinner_none_iff, checkDraw_false_iff]

/-- Witness for C2 at a board with X winning in the top row. -/
theorem C2_getGameResult_canonical_witness :
    ∃ l₁ l₂, GameLogic.winningCombinations = l₁ ++ ((0, 1, 2) : Triple) :: l₂ ∧
      lineWins [some .X, some .X, some .X, some .O, some .O, none, none, none, none]
        .X (0, 1, 2) ∧
      ∀ u ∈ l₁, ∀ mm,
        ¬ lineWins [some .X, some .X, some .X, some .O, some .O, none, none, none, none]
          mm u :=
  ((C2_getGameResult_canonical
      [some .X, some .X, some .X, some .O, some .O, none, none, none, none]
      (by decide)).1 .X (0, 1, 2)).mp (by decide)

/-- C3: `minimax` scores terminal boards as `10 - depth`, `depth - 10` or
`0` for AI win, human win or draw, and on a board still in progress the
maximizing layer attains the maximum (the minimizing layer the minimum)
over all empty cells of `minimax` at `depth + 1` after placing the AI
(resp. human) mark in that cell. -/
theorem C3_minimax_recurrence : ∀ (b : Board) (d : Nat) (m : Bool),
    (AIPlayer.checkGameState b = some (.mark .O) →
      AIPlayer.minimax b d m = .fin (10 - (d : Int))) ∧
    (AIPlayer.checkGameState b = some (.mark .X) →
      AIPlayer.minimax b d m = .fin ((d : Int) - 10)) ∧
    (AIPlayer.checkGameState b = some .draw → AIPlayer.minimax b d m = .fin 0) ∧
    (AIPlayer.checkGameState b = none →
      (m = true →
        (∃ i, i < b.length ∧ b.getD i none = none ∧
          AIPlayer.minimax b d true = AIPlayer.minimax (b.set i (some .O)) (d + 1) false) ∧
        (∀ i, i < b.length → b.getD i none = none →
          jle (AIPlayer.minimax (b.set i (some .O)) (d + 1) false)
            (AIPlayer.minimax b d true))) ∧
      (m = false →
        (∃ i, i < b.length ∧ b.getD i none = none ∧
          AIPlayer.minimax b d false = AIPlayer.minimax (b.set i (some .X)) (d + 1) true) ∧
        (∀ i, i < b.length → b.getD i none = none →
          jle (AIPlayer.minimax b d false)
            (AIPlayer.minimax (b.set i (some .X)) (d + 1) true)))) := by
  intro b d m
  refine ⟨fun h => minimax_terminal_O h, fun h => minimax_terminal_X h,
    fun h => minimax_terminal_draw h, ?_⟩
  intro hc
  constructor
  · rintro rfl
    constructor
    · rw [minimax_inProgress_max hc]
      rcases foldl_maxStep_cases b
        (fun i => AIPlayer.minimax (b.set i (some .O)) (d + 1) false)
        (List.range b.length) .negInf with h1 | ⟨j, hj, hje, h1⟩
      · exfalso
        obtain ⟨i, hi, he⟩ := exists_empty_of_inProgress hc
        have hge := foldl_maxStep_ge_mem b
          (fun i => AIPlayer.minimax (b.set i (some .O)) (d + 1) false)
          (List.range b.length) .negInf i (List.mem_range.2 hi) he
        rw [h1] at hge
        obtain ⟨v, hv⟩ := minimax_fin (b.set i (some .O)) (d + 1) false
        simp only [hv] at hge
        exact hge (negInf_lt_fin v)
      · exact ⟨j, List.mem_range.1 hj, hje, h1⟩
    · intro i hi he
      rw [minimax_inProgress_max hc]
      exact foldl_maxStep_ge_mem b _ _ _ i (List.mem_range.2 hi) he
  · rintro rfl
    constructor
    · rw [minimax_inProgress_min hc]
      rcases foldl_minStep_cases b
        (fun i => AIPlayer.minimax (b.set i (some .X)) (d + 1) true)
        (List.range b.length) .posInf with h1 | ⟨j, hj, hje, h1⟩
      · exfalso
        obtain ⟨i, hi, he⟩ := exists_empty_of_inProgress hc
        have hge := foldl_minStep_le_mem b
          (fun i => AIPlayer.minimax (b.set i (some .X)) (d + 1) true)
          (List.range b.length) .posInf i (List.mem_range.2 hi) he
        rw [h1] at hge
        obtain ⟨v, hv⟩ := minimax_fin (b.set i (some .X)) (d + 1) true
        simp only [hv] at hge
        exact hge (fin_lt_posInf v)
      · exact ⟨j, List.mem_range.1 hj, hje, h1⟩
    · intro i hi he
      rw [minimax_inProgress_min hc]
      exact foldl_minStep_le_mem b _ _ _ i (List.mem_range.2 hi) he

/-- Witness for C3 at a terminal board won by the AI. -/
theorem C3_minimax_recurrence_witness :
    AIPlayer.checkGameState
      [some .O, some .O, some .O, some .X, some .X, none, none, none, none] =
      some (.mark .O) ∧
    AIPlayer.minimax
      [some .O, some .O, some .O, some .X, some .X, none, none, none, none] 3 true =
      .fin 7 :=
  ⟨by decide,
   (C3_minimax_recurrence
      [some .O, some .O, some .O, some .X, some .X, none, none, none, none]
      3 true).1 (by decide)⟩

/-- C4: `findBestMove` returns `null` exactly when the board has no empty
cell; otherwise it returns an in-range empty cell whose minimax score is
maximal among all empty cells, and every earlier empty cell scores
strictly lower (ties keep the first cell in index order). -/
theorem C4_findBestMove_first_argmax : ∀ b : Board,
    (AIPlayer.findBestMove b = none ↔ ∀ i, i < b.length → b.getD i none ≠ none) ∧
    (∀ j, AIPlayer.findBestMove b = some j →
      j < b.length ∧ b.getD j none = none ∧
      (∀ i, i < b.length → b.getD i none = none →
        jle (AIPlayer.minimax (b.set i (some .O)) 0 false)
          (AIPlayer.minimax (b.set j (some .O)) 0 false)) ∧
      (∀ i, i < j → b.getD i none = none →
        JNum.lt (AIPlayer.minimax (b.set i (some .O)) 0 false)
          (AIPlayer.minimax (b.set j (some .O)) 0 false) = true)) := by
  intro b
  constructor
  · constructor
    · exact (findBestMove_spec b).1
    · intro hall
      cases hf : AIPlayer.findBestMove b with
      | none => rfl
      | some j =>
          obtain ⟨hj1, hj2, _, _⟩ := (findBestMove_spec b).2 j hf
          exact absurd hj2 (hall j hj1)
  · exact (findBestMove_spec b).2

/-- Witness for C4 at a board whose only empty cell is 8. -/
theorem C4_findBestMove_first_argmax_witness :
    8 < ([some .X, some .O, some .X, some .O, some .X, some .O, some .O, some .X,
          none] : Board).length ∧
    ([some .X, some .O, some .X, some .O, some .X, some .O, some .O, some .X,
          none] : Board).getD 8 none = none :=
  ⟨((C4_findBestMove_first_argmax
      [some .X, some .O, some .X, some .O, some .X, some .O, some .O, some .X, none]).2
      8 (by decide)).1,
   ((C4_findBestMove_first_argmax
      [some .X, some .O, some .X, some .O, some .X, some .O, some .O, some .X, none]).2
      8 (by decide)).2.1⟩

/-- C5: the mutate-and-undo search of `findBestMove` and `minimax` always
hands back the board in its entry state: every hypothetical placement,
including those inside recursive calls, is undone before returning. -/
theorem C5_search_restores_board : ∀ (fuel : Nat) (b : Board) (d : Nat) (m : Bool),
    (AIPlayer.minimaxM fuel b d m).2 = b ∧ (AIPlayer.findBestMoveM b).2 = b :=
  fun fuel b d m => ⟨minimaxM_board fuel b d m, findBestMoveM_board b⟩

/-- C6 counterexample: `makeMove` performs no range check. On the fresh
board, index 9 is outside 0–8, yet the move succeeds and changes the
board (JavaScript array assignment extends the array). -/
theorem C6_makeMove_validation_counterexample :
    (GameState.initial.makeMove 9).1 = true ∧
    (GameState.initial.makeMove 9).2.board ≠ GameState.initial.board := by
  decide

/-- C6 (amended): `makeMove` rejects (returns false, state unchanged) a
move onto an occupied cell or while the game is inactive; it has no range
check, so any index whose cell reads empty succeeds while the game is
active, placing the current player's mark there (out-of-range indices
extend the board) and leaving every other cell, the current player, the
active flag and the scores unchanged. -/
theorem C6_makeMove_validation_amended : ∀ (s : GameState) (i : Nat),
    ((s.board.getD i none ≠ none ∨ s.gameActive = false) → s.makeMove i = (false, s)) ∧
    (s.board.getD i none = none → s.gameActive = true →
      (s.makeMove i).1 = true ∧
      (s.makeMove i).2.board.getD i none = some s.currentPlayer ∧
      (∀ j, j ≠ i → (s.makeMove i).2.board.getD j none = s.board.getD j none) ∧
      (s.makeMove i).2.currentPlayer = s.currentPlayer ∧
      (s.makeMove i).2.gameActive = s.gameActive ∧
      (s.makeMove i).2.scores = s.scores) := by
  intro s i
  constructor
  · intro h
    unfold GameState.makeMove
    rw [if_pos h]
  · intro he ha
    have h1 : (s.makeMove i).1 = true := (makeMove_success_iff s i).2 ⟨he, ha⟩
    have hb := makeMove_success_board s i h1
    refine ⟨h1, ?_, ?_, (makeMove_fields s i).1, (makeMove_fields s i).2.1,
      (makeMove_fields s i).2.2⟩
    · rw [hb, jsArraySet_getD_self]
    · intro j hj
      rw [hb, jsArraySet_getD_ne s.board i (some s.currentPlayer) j hj]

/-- Witness for the amended C6 at the fresh board, cell 4. -/
theorem C6_makeMove_validation_amended_witness :
    GameState.initial.board.getD 4 none = none ∧
    GameState.initial.gameActive = true ∧
    (GameState.initial.makeMove 4).1 = true ∧
    (GameState.initial.makeMove 4).2.board.getD 4 none = some Mark.X := by
  refine ⟨by decide, by decide, ?_, ?_⟩
  · exact ((C6_makeMove_validation_amended GameState.initial 4).2
      (by decide) (by decide)).1
  · exact ((C6_makeMove_validation_amended GameState.initial 4).2
      (by decide) (by decide)).2.1

/-- C7: turn alternation. A click while it is the AI's turn is ignored; a
rejected move leaves the current player unchanged; a successful move that
ends the game does not advance the turn; a successful move with the game
still in progress flips the current player from X to O or from O to X.
The same holds for the deferred AI-move application. -/
theorem C7_turn_alternation : ∀ (g : Game) (i : Nat),
    (g.config.isAITurn g.state.currentPlayer = true →
      TicTacToeGame.handleCellClick g i = g) ∧
    (g.config.isAITurn g.state.currentPlayer = false →
      ((g.state.makeMove i).1 = false →
        (TicTacToeGame.handleCellClick g i).state.currentPlayer =
          g.state.currentPlayer) ∧
      ((g.state.makeMove i).1 = true →
        (GameLogic.getGameResult (g.state.makeMove i).2.board ≠ none →
          (TicTacToeGame.handleCellClick g i).state.currentPlayer =
            g.state.currentPlayer) ∧
        (GameLogic.getGameResult (g.state.makeMove i).2.board = none →
          (TicTacToeGame.handleCellClick g i).state.currentPlayer =
            (if g.state.currentPlayer = .X then .O else .X)))) ∧
    (∀ j, AIPlayer.findBestMove g.state.board = some j →
      ((g.state.makeMove j).1 = false →
        (TicTacToeGame.aiMoveCallback g).state.currentPlayer =
          g.state.currentPlayer) ∧
      ((g.state.makeMove j).1 = true →
        (GameLogic.getGameResult (g.state.makeMove j).2.board ≠ none →
          (TicTacToeGame.aiMoveCallback g).state.currentPlayer =
            g.state.currentPlayer) ∧
        (GameLogic.getGameResult (g.state.makeMove j).2.board = none →
          (TicTacToeGame.aiMoveCallback g).state.currentPlayer =
            (if g.state.currentPlayer = .X then .O else .X)))) := by
  intro g i
  refine ⟨fun hai => handleCellClick_ai_guard hai, ?_, ?_⟩
  · intro hai
    constructor
    · intro hf
      rw [handleCellClick_fail hai hf]
    · intro hs
      cases hmm : g.state.makeMove i with
      | mk ok s₁ =>
          have hok : ok = true := by rw [hmm] at hs; exact hs
          subst hok
          constructor
          · intro hterm
            cases hres : GameLogic.getGameResult s₁.board with
            | none => exact absurd hres hterm
            | some r =>
                rw [handleCellClick_end hai hmm hres, handleGameEnd_currentPlayer]
                have hcp := (makeMove_fields g.state i).1
                rw [hmm] at hcp
                exact hcp
          · intro hres0
            rw [handleCellClick_ongoing hai hmm hres0]
            show s₁.switchPlayer.currentPlayer = _
            rw [switchPlayer_currentPlayer]
            have hcp := (makeMove_fields g.state i).1
            rw [hmm] at hcp
            rw [hcp]
  · intro j hbm
    constructor
    · intro hf
      rw [aiMoveCallback_fail hbm hf]
    · intro hs
      cases hmm : g.state.makeMove j with
      | mk ok s₁ =>
          have hok : ok = true := by rw [hmm] at hs; exact hs
          subst hok
          constructor
          · intro hterm
            cases hres : GameLogic.getGameResult s₁.board with
            | none => exact absurd hres hterm
            | some r =>
                rw [aiMoveCallback_succ hbm hmm, hres, handleGameEnd_currentPlayer]
                have hcp := (makeMove_fields g.state j).1
                rw [hmm] at hcp
                exact hcp
          · intro hres0
            rw [aiMoveCallback_succ hbm hmm, hres0]
            show s₁.switchPlayer.currentPlayer = _
            rw [switchPlayer_currentPlayer]
            have hcp := (makeMove_fields g.state j).1
            rw [hmm] at hcp
            rw [hcp]

/-- Witness for C7: in the AI game the human plays cell 0 and the turn
passes to O. -/
theorem C7_turn_alternation_witness :
    aiGame₀.config.isAITurn aiGame₀.state.currentPlayer = false ∧
    (aiGame₀.state.makeMove 0).1 = true ∧
    GameLogic.getGameResult (aiGame₀.state.makeMove 0).2.board = none ∧
    (TicTacToeGame.handleCellClick aiGame₀ 0).state.currentPlayer = Mark.O := by
  refine ⟨by decide, by decide, by decide, ?_⟩
  have h := (((C7_turn_alternation aiGame₀ 0).2.1 (by decide)).2 (by decide)).2 (by decide)
  simpa using h

/-- C8: the source does not guard the deferred AI-move callback against an
intervening reset. After the human clicks cell 0 in the AI game and the
session is reset while the 500 ms callback is still pending, the callback
fires on the fresh board and mutates the state (it applies a move — with
mark X, the reset current player — instead of no-opping). -/
theorem C8_stale_callback_mutates :
    (TicTacToeGame.aiMoveCallback
        (TicTacToeGame.resetGame (TicTacToeGame.handleCellClick aiGame₀ 0))).state ≠
      (TicTacToeGame.resetGame (TicTacToeGame.handleCellClick aiGame₀ 0)).state := by
  intro h
  have hb := congrArg GameState.board h
  exact aiMoveCallback_changes
    (g := TicTacToeGame.resetGame (TicTacToeGame.handleCellClick aiGame₀ 0)) rfl rfl hb

/-- C9: `resetGame` clears the board to 9 empty cells, sets the current
player back to X, reactivates the game, and preserves the configuration
and the score ledger. -/
theorem C9_reset_session : ∀ g : Game,
    (TicTacToeGame.resetGame g).config = g.config ∧
    (TicTacToeGame.resetGame g).state.scores = g.state.scores ∧
    (TicTacToeGame.resetGame g).state.currentPlayer = .X ∧
    (TicTacToeGame.resetGame g).state.gameActive = true ∧
    (TicTacToeGame.resetGame g).state.board.length = 9 ∧
    (∀ i, (TicTacToeGame.resetGame g).state.board.getD i none = none) := by
  intro g
  refine ⟨rfl, rfl, rfl, rfl, rfl, ?_⟩
  intro i
  exact empty9_getD

/-- C10: the AI's internal terminal test agrees with the rules engine:
`checkGameState` reports a mark exactly when `getGameResult` reports that
mark winning with some triple, reports a draw exactly when `getGameResult`
does, and reports in-progress exactly when `getGameResult` does. -/
theorem C10_checkGameState_agrees : ∀ b : Board,
    (∀ m : Mark, AIPlayer.checkGameState b = some (.mark m) ↔
      ∃ comb, GameLogic.getGameResult b = some ⟨.mark m, comb⟩) ∧
    (AIPlayer.checkGameState b = some .draw ↔
      GameLogic.getGameResult b = some ⟨.draw, []⟩) ∧
    (AIPlayer.checkGameState b = none ↔ GameLogic.getGameResult b = none) := by
  intro b
  have hfeq : GameLogic.comboWin b = fun t =>
      (AIPlayer.comboCheck b t).map
        (fun m => (⟨.mark m, [t.1, t.2.1, t.2.2]⟩ : GameResult)) :=
    funext (fun t => comboWin_eq_map b t)
  refine ⟨?_, ?_, ?_⟩
  · intro m
    rw [checkGameState_mark_iff]
    constructor
    · intro hf
      obtain ⟨a, hGa, hmap⟩ := findSome?_map_some₂ (AIPlayer.comboCheck b)
        (fun t mm => (⟨.mark mm, [t.1, t.2.1, t.2.2]⟩ : GameResult))
        AIPlayer.winningCombinations m hf
      refine ⟨[a.1, a.2.1, a.2.2], ?_⟩
      rw [getGameResult_win_iff]
      unfold GameLogic.checkWinner
      rw [hfeq]
      exact hmap
    · rintro ⟨comb, hg⟩
      rw [getGameResult_win_iff] at hg
      unfold GameLogic.checkWinner at hg
      rw [hfeq] at hg
      obtain ⟨a, mm, hGa, hshape, hfind⟩ := findSome?_map_some₁
        (AIPlayer.comboCheck b)
        (fun t mm => (⟨.mark mm, [t.1, t.2.1, t.2.2]⟩ : GameResult))
        GameLogic.winningCombinations ⟨.mark m, comb⟩ hg
      have hwin := congrArg GameResult.winner hshape
      simp only at hwin
      have hm : m = mm := by
        cases hwin
        rfl
      rw [hm]
      exact hfind
  · rw [checkGameState_draw_iff, getGameResult_draw_iff]
    constructor
    · rintro ⟨hn, hall⟩
      refine ⟨?_, hall⟩
      unfold GameLogic.checkWinner
      rw [hfeq, findSome?_map_none]
      exact hn
    · rintro ⟨hn, hd⟩
      unfold GameLogic.checkWinner at hn
      rw [hfeq, findSome?_map_none] at hn
      exact ⟨hn, hd⟩
  · rw [checkGameState_none_iff, getGameResult_none_iff]
    constructor
    · rintro ⟨hn, hne⟩
      refine ⟨?_, hne⟩
      unfold GameLogic.checkWinner
      rw [hfeq, findSome?_map_none]
      exact hn
    · rintro ⟨hn, hne⟩
      unfold GameLogic.checkWinner at hn
      rw [hfeq, findSome?_map_none] at hn
      exact ⟨hn, hne⟩
